import Mathlib

/-!
Verification of the quarterly simulation core of the huaidao research
simulator (src/src/App.tsx).  JS numbers are embedded as `ℚ`, JS
`undefined`-able fields as `Option`, and every call to `Math.random()` is
replaced by an explicit oracle argument `u : ℚ` with `0 ≤ u < 1`, so that
properties quantified over "every random outcome" become universal
statements over those arguments.  Narrative strings that are interpolated
with runtime values in the source are elided to their static titles; all
state-bearing fields are embedded in full.
-/

namespace HuaidaoSim

/-- `clampValue` from App.tsx: `Math.max(min, Math.min(max, value))`. -/
def clampValue (value lo hi : ℚ) : ℚ := max lo (min hi value)

/-- JS `Math.round` (round half toward +infinity) on rationals. -/
def jsRound (x : ℚ) : ℤ := ⌊x + 1/2⌋

/-- JS `Math.floor` on rationals. -/
def jsFloor (x : ℚ) : ℤ := ⌊x⌋

/-- `rollInRange` from App.tsx: `Math.round(min + Math.random() * (max - min))`,
with the `Math.random()` draw made explicit as `u`. -/
def rollInRange (lo hi u : ℚ) : ℚ := (jsRound (lo + u * (hi - lo)) : ℚ)

/-- One named gauge of the mentor: current value plus fixed maximum.
Modelled from the spec: the `MentorStats` type lives in
`src/logic/gameState.ts`, which is not under src/; spec §3 describes the
gauges as "named numeric gauges ... each with a current value and a fixed
maximum". -/
structure Gauge where
  value : ℚ
  max : ℚ
deriving DecidableEq

/-- Modelled from the spec: `MentorStats` (declared in the missing
`src/logic/gameState.ts`) per spec §3 — four bounded gauges, unbounded
non-negative `funding`, signed `reputation`, plus the current year and
quarter used by the settlement code in App.tsx. -/
structure MentorStats where
  morale : Gauge
  academia : Gauge
  admin : Gauge
  integrity : Gauge
  funding : ℚ
  reputation : ℚ
  year : ℤ
  quarter : ℤ
deriving DecidableEq

/-- `StatDelta` from App.tsx: every field optional. -/
structure StatDelta where
  morale : Option ℚ := none
  academia : Option ℚ := none
  admin : Option ℚ := none
  integrity : Option ℚ := none
  funding : Option ℚ := none
  reputation : Option ℚ := none
deriving DecidableEq

/-- `StudentDelta` from App.tsx: every field optional. -/
structure StudentDelta where
  diligence : Option ℚ := none
  talent : Option ℚ := none
  luck : Option ℚ := none
  stress : Option ℚ := none
  mentalState : Option ℚ := none
  contribution : Option ℚ := none
  pendingPapers : Option ℚ := none
  totalPapers : Option ℚ := none
deriving DecidableEq

/-- JS truthiness of an optional number: `undefined` and `0` are falsy. -/
def numTruthy : Option ℚ → Bool
  | none => false
  | some x => x ≠ 0

/-- One gauge field of `applyMentorDelta`:
`delta.k ? { ...stats.k, value: clampValue(stats.k.value + delta.k, 0, stats.k.max) } : stats.k`. -/
def applyGaugeDelta (g : Gauge) (d : Option ℚ) : Gauge :=
  if numTruthy d then { g with value := clampValue (g.value + d.getD 0) 0 g.max }
  else g

/-- `applyMentorDelta` from App.tsx (lines 2262-2274). -/
def applyMentorDelta (stats : MentorStats) (delta : StatDelta) : MentorStats :=
  { stats with
    morale := applyGaugeDelta stats.morale delta.morale
    academia := applyGaugeDelta stats.academia delta.academia
    admin := applyGaugeDelta stats.admin delta.admin
    integrity := applyGaugeDelta stats.integrity delta.integrity
    funding := if numTruthy delta.funding then max (stats.funding + delta.funding.getD 0) 0 else stats.funding
    reputation := if numTruthy delta.reputation then stats.reputation + delta.reputation.getD 0 else stats.reputation }

/-- `StudentPersona` from App.tsx (lines 161-189); fields that are pure
narrative flavor (bio, reactions, department, personality) are elided. -/
structure StudentPersona where
  id : String
  name : String
  studentType : String
  year : ℤ
  diligence : ℚ
  stress : ℚ
  talent : ℚ
  luck : ℚ
  hiddenLuck : ℚ
  contribution : ℚ
  pendingPapers : ℚ
  totalPapers : ℚ
  mentalState : ℚ
  isBeingMentored : Bool
  traits : List String
  mentorId : Option String := none
deriving DecidableEq

/-- `applyStudentDelta` from App.tsx (lines 2276-2291): present fields are
added then clamped (`pendingPapers`/`totalPapers` only floored at 0);
absent (`undefined`) fields are untouched. -/
def applyStudentDelta (student : StudentPersona) (delta : StudentDelta) : StudentPersona :=
  { student with
    diligence := match delta.diligence with
      | none => student.diligence
      | some d => clampValue (student.diligence + d) 0 100
    talent := match delta.talent with
      | none => student.talent
      | some d => clampValue (student.talent + d) 0 100
    luck := match delta.luck with
      | none => student.luck
      | some d => clampValue (student.luck + d) 0 100
    stress := match delta.stress with
      | none => student.stress
      | some d => clampValue (student.stress + d) 0 100
    mentalState := match delta.mentalState with
      | none => student.mentalState
      | some d => clampValue (student.mentalState + d) 0 100
    contribution := match delta.contribution with
      | none => student.contribution
      | some d => clampValue (student.contribution + d) 0 100
    pendingPapers := match delta.pendingPapers with
      | none => student.pendingPapers
      | some d => max (student.pendingPapers + d) 0
    totalPapers := match delta.totalPapers with
      | none => student.totalPapers
      | some d => max (student.totalPapers + d) 0 }

/-- Bounds invariant for mentor stats: each gauge within `[0, max]`,
funding non-negative. -/
def mentorStatsInBounds (s : MentorStats) : Prop :=
  0 ≤ s.morale.value ∧ s.morale.value ≤ s.morale.max ∧
  0 ≤ s.academia.value ∧ s.academia.value ≤ s.academia.max ∧
  0 ≤ s.admin.value ∧ s.admin.value ≤ s.admin.max ∧
  0 ≤ s.integrity.value ∧ s.integrity.value ≤ s.integrity.max ∧
  0 ≤ s.funding

/-- Bounds invariant for a student: the five attributes and `contribution`
within `[0,100]`, paper counters non-negative. -/
def studentInBounds (s : StudentPersona) : Prop :=
  0 ≤ s.diligence ∧ s.diligence ≤ 100 ∧
  0 ≤ s.talent ∧ s.talent ≤ 100 ∧
  0 ≤ s.luck ∧ s.luck ≤ 100 ∧
  0 ≤ s.stress ∧ s.stress ≤ 100 ∧
  0 ≤ s.mentalState ∧ s.mentalState ≤ 100 ∧
  0 ≤ s.contribution ∧ s.contribution ≤ 100 ∧
  0 ≤ s.pendingPapers ∧ 0 ≤ s.totalPapers

instance (s : MentorStats) : Decidable (mentorStatsInBounds s) := by
  unfold mentorStatsInBounds; infer_instance

instance (s : StudentPersona) : Decidable (studentInBounds s) := by
  unfold studentInBounds; infer_instance

/-- A (year, quarter) stamp. -/
structure Stamp where
  year : ℤ
  quarter : ℤ
deriving DecidableEq

/-- `toQuarterIndex` from App.tsx: `(year - 1) * 4 + (quarter - 1)`. -/
def toQuarterIndex (year quarter : ℤ) : ℤ := (year - 1) * 4 + (quarter - 1)

/-- `addQuarters` from App.tsx. -/
def addQuarters (stamp : Stamp) (offset : ℤ) : Stamp :=
  let next := toQuarterIndex stamp.year stamp.quarter + offset
  { year := next / 4 + 1, quarter := next % 4 + 1 }

/-- `isQuarterReached` from App.tsx. -/
def isQuarterReached (current target : Stamp) : Bool :=
  toQuarterIndex target.year target.quarter ≤ toQuarterIndex current.year current.quarter

inductive PaperVenueType | conference | journal
deriving DecidableEq

inductive PaperVenueTier | A | B | C
deriving DecidableEq

inductive ProjectPaperStatus | awaitingVenue | underReview | awaitingRevision | accepted | rejected
deriving DecidableEq

inductive RevisionKind | minor | major
deriving DecidableEq

/-- `ProjectPaper` from App.tsx (lines 93-108). -/
structure ProjectPaper where
  id : String
  projectId : String
  projectTitle : String
  leadStudentId : Option String
  grantId : Option String := none
  venueType : Option PaperVenueType := none
  venueTier : Option PaperVenueTier := none
  status : ProjectPaperStatus
  submittedYear : Option ℤ := none
  submittedQuarter : Option ℤ := none
  decisionDueYear : Option ℤ := none
  decisionDueQuarter : Option ℤ := none
  revisionRound : ℚ
  lastRevisionKind : Option RevisionKind := none
deriving DecidableEq

structure LogEvent where
  title : String
  detail : String
deriving DecidableEq

/-- `baseAcceptance` table from `settleProjectPapers` (App.tsx line 1103). -/
def baseAcceptance : PaperVenueTier → ℚ
  | .A => 0.18
  | .B => 0.28
  | .C => 0.42

/-- `baseRevision` table from `settleProjectPapers` (App.tsx line 1104). -/
def baseRevision : PaperVenueTier → ℚ
  | .A => 0.55
  | .B => 0.45
  | .C => 0.35

/-- `baseMajorRevision` table from `settleProjectPapers` (App.tsx line 1105). -/
def baseMajorRevision : PaperVenueTier → ℚ
  | .A => 0.65
  | .B => 0.5
  | .C => 0.35

/-- `rewardsByTier` from App.tsx (lines 1052-1056). -/
def rewardsByTier : PaperVenueTier → ℚ × ℚ
  | .A => (3, 12000)
  | .B => (2, 8000)
  | .C => (1, 5000)

/-- `resolveLeadStudent` from `settleProjectPapers`. -/
def resolveLeadStudent (students : List StudentPersona) (paper : ProjectPaper) :
    Option StudentPersona :=
  match paper.leadStudentId with
  | none => none
  | some sid => students.find? (fun s => s.id = sid)

/-- Effective `venueTier` of a paper under settlement:
`isPaperVenueTier(paper.venueTier) ? paper.venueTier : 'C'`. -/
def effectiveVenueTier (paper : ProjectPaper) : PaperVenueTier :=
  paper.venueTier.getD .C

/-- The `acceptChance` computed per paper in `settleProjectPapers`
(App.tsx line 1119). -/
def paperAcceptChance (students : List StudentPersona) (mentorStats : MentorStats)
    (paper : ProjectPaper) : ℚ :=
  let venueTier := effectiveVenueTier paper
  let lead := resolveLeadStudent students paper
  let academiaBoost := mentorStats.academia.value / 260
  let leadBoost := match lead with
    | some l => (l.talent + l.diligence) / 650
    | none => 0
  let revisionBoost := paper.revisionRound * 0.06
  let stressPenalty := match lead with
    | some l => l.stress / 650
    | none => 0
  clampValue (baseAcceptance venueTier + academiaBoost + leadBoost + revisionBoost - stressPenalty) 0.06 0.85

/-- The raw `revisionChance` before renormalization (App.tsx line 1120). -/
def paperRevisionChanceRaw (paper : ProjectPaper) : ℚ :=
  clampValue (baseRevision (effectiveVenueTier paper) - paper.revisionRound * 0.08) 0.15 0.75

/-- The effective `revisionChance` after the `> 0.95` renormalization
(App.tsx line 1121): only `revisionChance` is shrunk, never `acceptChance`. -/
def paperRevisionChance (students : List StudentPersona) (mentorStats : MentorStats)
    (paper : ProjectPaper) : ℚ :=
  let acceptChance := paperAcceptChance students mentorStats paper
  let revisionChance := paperRevisionChanceRaw paper
  if acceptChance + revisionChance > 0.95 then 0.95 - acceptChance else revisionChance

/-- Side outputs of settling one paper: accumulated mentor-stat delta,
emitted per-student deltas, whether a revision decision was queued, and
log-event titles. -/
structure PaperSettleOut where
  paper : ProjectPaper
  statDelta : List (String × ℚ)
  studentDeltas : List (String × StudentDelta)
  revisionDecisionQueued : Bool
  eventTitles : List String
deriving DecidableEq

/-- JS truthiness of an optional integer (`!paper.decisionDueYear`):
`undefined` and `0` are both falsy. -/
def intTruthy : Option ℤ → Bool
  | none => false
  | some n => n ≠ 0

/-- The per-paper body of the `projectPapers.map` inside
`settleProjectPapers` (App.tsx lines 1107-1190).  `roll` is the verdict
draw and `majorRoll` the major/minor revision draw. -/
def settleProjectPaperOne (students : List StudentPersona) (mentorStats : MentorStats)
    (currentStamp : Stamp) (roll majorRoll : ℚ) (paper : ProjectPaper) : PaperSettleOut :=
  if paper.status ≠ .underReview then
    { paper := paper, statDelta := [], studentDeltas := [], revisionDecisionQueued := false, eventTitles := [] }
  else if ¬ (intTruthy paper.decisionDueYear ∧ intTruthy paper.decisionDueQuarter) then
    { paper := paper, statDelta := [], studentDeltas := [], revisionDecisionQueued := false, eventTitles := [] }
  else if ¬ isQuarterReached currentStamp
      { year := paper.decisionDueYear.getD 0, quarter := paper.decisionDueQuarter.getD 0 } then
    { paper := paper, statDelta := [], studentDeltas := [], revisionDecisionQueued := false, eventTitles := [] }
  else
    let venueTier := effectiveVenueTier paper
    let acceptChance := paperAcceptChance students mentorStats paper
    let revisionChance := paperRevisionChance students mentorStats paper
    if roll < acceptChance then
      let reward := rewardsByTier venueTier
      { paper := { paper with status := .accepted, decisionDueYear := none, decisionDueQuarter := none }
        statDelta := [("reputation", reward.1), ("funding", reward.2), ("morale", 2)]
        studentDeltas := match paper.leadStudentId with
          | some sid =>
            [(sid, { pendingPapers := some (-1), totalPapers := some 1, mentalState := some 4, stress := some (-5) })]
          | none => []
        revisionDecisionQueued := false
        eventTitles := ["课题论文接收"] }
    else if roll < acceptChance + revisionChance then
      let majorChance := clampValue (baseMajorRevision venueTier - paper.revisionRound * 0.18) 0.15 0.75
      let revisionKind : RevisionKind := if majorRoll < majorChance then .major else .minor
      let nextPaper : ProjectPaper :=
        { paper with status := .awaitingRevision, lastRevisionKind := some revisionKind, decisionDueYear := none, decisionDueQuarter := none }
      { paper := nextPaper
        statDelta := []
        studentDeltas := match paper.leadStudentId with
          | some sid => [(sid, { mentalState := some (-2), stress := some 3 })]
          | none => []
        revisionDecisionQueued := true
        eventTitles := ["课题论文返修"] }
    else
      { paper := { paper with status := .rejected, decisionDueYear := none, decisionDueQuarter := none }
        statDelta := [("morale", -2)]
        studentDeltas := match paper.leadStudentId with
          | some sid => [(sid, { pendingPapers := some (-1), mentalState := some (-5), stress := some 4 })]
          | none => []
        revisionDecisionQueued := false
        eventTitles := ["课题论文拒稿"] }

/-- `mergeStudentDelta` from `settleProjectPapers` (App.tsx lines 1086-1098):
merging makes every field present (absent fields become explicit zeros). -/
def mergeStudentDelta (current delta : StudentDelta) : StudentDelta :=
  { diligence := some ((current.diligence.getD 0) + (delta.diligence.getD 0))
    talent := some ((current.talent.getD 0) + (delta.talent.getD 0))
    luck := some ((current.luck.getD 0) + (delta.luck.getD 0))
    stress := some ((current.stress.getD 0) + (delta.stress.getD 0))
    mentalState := some ((current.mentalState.getD 0) + (delta.mentalState.getD 0))
    contribution := some ((current.contribution.getD 0) + (delta.contribution.getD 0))
    pendingPapers := some ((current.pendingPapers.getD 0) + (delta.pendingPapers.getD 0))
    totalPapers := some ((current.totalPapers.getD 0) + (delta.totalPapers.getD 0)) }

/-- The empty `StudentDelta` (`{}` in the source). -/
def emptyStudentDelta : StudentDelta := {}

/-- The `studentDeltaById` record accumulated across all papers, keyed by
student id (association list standing in for the JS object). -/
def accumulateStudentDeltas (outs : List (String × StudentDelta)) :
    List (String × StudentDelta) :=
  outs.foldl (fun acc (entry : String × StudentDelta) =>
    match acc.find? (fun kv => kv.1 = entry.1) with
    | some kv => acc.map (fun kv2 => if kv2.1 = entry.1 then (kv2.1, mergeStudentDelta kv.2 entry.2) else kv2)
    | none => acc ++ [(entry.1, mergeStudentDelta emptyStudentDelta entry.2)]) []

/-- `settleProjectPapers` (App.tsx lines 1058-1199): papers are settled
one by one (the verdict rolls supplied per index by `rolls`), student
deltas are merged by id and applied at the end. -/
def settleProjectPapers (students : List StudentPersona) (mentorStats : MentorStats)
    (currentStamp : Stamp) (rolls : ℕ → ℚ × ℚ) (projectPapers : List ProjectPaper) :
    List ProjectPaper × List StudentPersona :=
  let outs := (projectPapers.enum.map (fun pi =>
    settleProjectPaperOne students mentorStats currentStamp (rolls pi.1).1 (rolls pi.1).2 pi.2))
  let updatedPapers := outs.map (·.paper)
  let deltaById := accumulateStudentDeltas (outs.foldl (fun acc o => acc ++ o.studentDeltas) [])
  let updatedStudents := students.map (fun student =>
    match deltaById.find? (fun kv => kv.1 = student.id) with
    | none => student
    | some kv => applyStudentDelta student kv.2)
  (updatedPapers, updatedStudents)

inductive GrantFundingTier | A | B | C
deriving DecidableEq

inductive GrantStatus | reviewing | active | completed | rejected | failed
deriving DecidableEq

/-- `GrantRequirement` from App.tsx (lines 113-117). -/
structure GrantRequirement where
  requiredSubmissions : ℚ
  requiredAccepted : ℚ
  requiredTopTierAtLeast : Option PaperVenueTier := none
deriving DecidableEq

/-- `GrantState` from App.tsx (lines 118-144). -/
structure GrantState where
  id : String
  type : String
  title : String
  appliedYear : ℤ
  appliedQuarter : ℤ
  reviewEndYear : ℤ
  reviewEndQuarter : ℤ
  status : GrantStatus
  baseScore : ℚ
  scoreDelta : ℚ
  luck : ℚ
  lastReviewEventYear : Option ℤ := none
  lastReviewEventQuarter : Option ℤ := none
  lastExecutionEventYear : Option ℤ := none
  lastExecutionEventQuarter : Option ℤ := none
  tier : Option GrantFundingTier := none
  fundingGranted : Option ℚ := none
  reputationGranted : Option ℚ := none
  activeStartYear : Option ℤ := none
  activeStartQuarter : Option ℤ := none
  closureDueYear : Option ℤ := none
  closureDueQuarter : Option ℤ := none
  assignedStudentIds : List String
  paperProgress : ℚ
  paperIds : List String
deriving DecidableEq

/-- `scoreBands` part of `GrantConfig`. -/
structure ScoreBands where
  rejectBelow : ℚ
  tierB : ℚ
  tierA : ℚ
deriving DecidableEq

/-- Per-tier grant config: funding, reputation range, closure requirement. -/
structure GrantTierConfig where
  funding : ℚ
  reputationLo : ℚ
  reputationHi : ℚ
  requirement : GrantRequirement
deriving DecidableEq

/-- `GrantConfig` from App.tsx (lines 291-303). -/
structure GrantConfig where
  type : String
  openQuarter : ℤ
  reviewOffsetQuarters : ℤ
  executionDurationQuarters : ℤ
  scoreBands : ScoreBands
  tierA : GrantTierConfig
  tierB : GrantTierConfig
  tierC : GrantTierConfig
  reviewEventChance : ℚ
  executionEventChance : ℚ
deriving DecidableEq

def GrantConfig.tierOf (config : GrantConfig) : GrantFundingTier → GrantTierConfig
  | .A => config.tierA
  | .B => config.tierB
  | .C => config.tierC

/-- The `国自然` entry of `grantConfigs` (App.tsx lines 306-331). -/
def grantConfigNatural : GrantConfig :=
  { type := "国自然"
    openQuarter := 1
    reviewOffsetQuarters := 2
    executionDurationQuarters := 6
    scoreBands := { rejectBelow := 55, tierB := 65, tierA := 80 }
    tierA := { funding := 300000, reputationLo := 4, reputationHi := 7
               requirement := { requiredSubmissions := 3, requiredAccepted := 2, requiredTopTierAtLeast := some .B } }
    tierB := { funding := 200000, reputationLo := 2, reputationHi := 4
               requirement := { requiredSubmissions := 2, requiredAccepted := 1 } }
    tierC := { funding := 120000, reputationLo := 1, reputationHi := 3
               requirement := { requiredSubmissions := 1, requiredAccepted := 0 } }
    reviewEventChance := 0.75
    executionEventChance := 0.6 }

/-- The `国社科` entry of `grantConfigs` (App.tsx lines 332-357). -/
def grantConfigSocial : GrantConfig :=
  { type := "国社科"
    openQuarter := 2
    reviewOffsetQuarters := 2
    executionDurationQuarters := 6
    scoreBands := { rejectBelow := 55, tierB := 65, tierA := 80 }
    tierA := { funding := 240000, reputationLo := 3, reputationHi := 6
               requirement := { requiredSubmissions := 3, requiredAccepted := 2, requiredTopTierAtLeast := some .B } }
    tierB := { funding := 160000, reputationLo := 2, reputationHi := 4
               requirement := { requiredSubmissions := 2, requiredAccepted := 1 } }
    tierC := { funding := 90000, reputationLo := 1, reputationHi := 3
               requirement := { requiredSubmissions := 1, requiredAccepted := 0 } }
    reviewEventChance := 0.75
    executionEventChance := 0.6 }

def grantConfigs : List GrantConfig := [grantConfigNatural, grantConfigSocial]

/-- `pickLeadStudentId` from `settleGrants` (App.tsx lines 1239-1249):
the assigned student with the highest `diligence + talent` (strictly
later entries win only when strictly better). -/
def pickLeadStudentId (students : List StudentPersona) (candidateIds : List String) :
    Option String :=
  let pool := candidateIds.filterMap (fun cid => students.find? (fun s => s.id = cid))
  match pool with
  | [] => none
  | s :: rest =>
    some (rest.foldl (fun best current =>
      if best.diligence + best.talent < current.diligence + current.talent then current else best) s).id

/-- `pickFallbackLeadId` from `settleGrants` (App.tsx lines 1251-1258). -/
def pickFallbackLeadId (students : List StudentPersona) : Option String :=
  match students with
  | [] => none
  | s :: rest =>
    some (rest.foldl (fun best current =>
      if best.diligence + best.talent < current.diligence + current.talent then current else best) s).id

/-- Result of settling one `reviewing` grant for a quarter. -/
structure GrantReviewSettleOut where
  grant : GrantState
  fundingDelta : ℚ
  reputationDelta : ℚ
  newPaper : Option ProjectPaper
  reviewEventRequested : Bool
  eventTitles : List String
deriving DecidableEq

/-- The `grant.status === 'reviewing'` branch of the `grants.map` inside
`settleGrants` (App.tsx lines 1292-1363).  Oracle arguments: `luckU` for
the quarterly `rollInRange(-3, 3)` luck tick, `eventU` for the
review-event chance draw, `repU` for the reputation reward roll;
`freshPaperId` stands in for the `Date.now()`-based paper id. -/
def settleGrantReviewing (students : List StudentPersona) (config : GrantConfig)
    (currentStamp decisionStamp : Stamp) (luckU eventU repU : ℚ) (freshPaperId : String)
    (grant : GrantState) : GrantReviewSettleOut :=
  let reviewEndStamp : Stamp := { year := grant.reviewEndYear, quarter := grant.reviewEndQuarter }
  let luckTick := rollInRange (-3) 3 luckU
  let nextGrant : GrantState := { grant with luck := grant.luck + luckTick }
  if ¬ isQuarterReached currentStamp reviewEndStamp then
    let alreadyQueued :=
      nextGrant.lastReviewEventYear = some decisionStamp.year ∧
      nextGrant.lastReviewEventQuarter = some decisionStamp.quarter
    if ¬ alreadyQueued ∧ eventU < config.reviewEventChance then
      { grant := { nextGrant with
          lastReviewEventYear := some decisionStamp.year
          lastReviewEventQuarter := some decisionStamp.quarter }
        fundingDelta := 0
        reputationDelta := 0
        newPaper := none
        reviewEventRequested := true
        eventTitles := ["课题评审来信"] }
    else
      { grant := nextGrant, fundingDelta := 0, reputationDelta := 0, newPaper := none
        reviewEventRequested := false, eventTitles := [] }
  else
    let finalScore := nextGrant.baseScore + nextGrant.scoreDelta + nextGrant.luck
    if finalScore < config.scoreBands.rejectBelow then
      { grant := { nextGrant with status := .rejected }
        fundingDelta := 0, reputationDelta := 0, newPaper := none
        reviewEventRequested := false, eventTitles := ["课题评审结果"] }
    else
      let tier : GrantFundingTier :=
        if config.scoreBands.tierA ≤ finalScore then .A
        else if config.scoreBands.tierB ≤ finalScore then .B
        else .C
      let tierConfig := config.tierOf tier
      let repGain := rollInRange tierConfig.reputationLo tierConfig.reputationHi repU
      let closureDue := addQuarters decisionStamp (config.executionDurationQuarters - 1)
      let autoLeadId :=
        if grant.assignedStudentIds ≠ [] then pickLeadStudentId students grant.assignedStudentIds
        else pickFallbackLeadId students
      let resolvedAssigned :=
        if grant.assignedStudentIds ≠ [] ∨ autoLeadId = none then grant.assignedStudentIds
        else [autoLeadId.getD ""]
      let firstPaper : ProjectPaper :=
        { id := freshPaperId
          projectId := "grant-" ++ grant.id
          projectTitle := grant.title
          leadStudentId := autoLeadId
          grantId := some grant.id
          status := .awaitingVenue
          revisionRound := 0 }
      { grant := { nextGrant with
          status := .active
          tier := some tier
          fundingGranted := some tierConfig.funding
          reputationGranted := some repGain
          activeStartYear := some decisionStamp.year
          activeStartQuarter := some decisionStamp.quarter
          closureDueYear := some closureDue.year
          closureDueQuarter := some closureDue.quarter
          assignedStudentIds := resolvedAssigned
          paperProgress := 0
          paperIds := grant.paperIds ++ [firstPaper.id] }
        fundingDelta := tierConfig.funding
        reputationDelta := repGain
        newPaper := some firstPaper
        reviewEventRequested := false
        eventTitles := ["成果投稿待办", "课题获批"] }

/-- Rank of a review outcome for monotonicity comparisons:
`rejected < active C < active B < active A`. -/
def reviewOutcomeRank (grant : GrantState) : ℕ :=
  match grant.status, grant.tier with
  | .active, some .A => 3
  | .active, some .B => 2
  | .active, some .C => 1
  | _, _ => 0

inductive TraitCategory | main | sub
deriving DecidableEq

inductive TraitPolarity | positive | negative | neutral
deriving DecidableEq

inductive StudentStatKey | diligence | talent | luck | stress | mentalState
deriving DecidableEq

/-- `StudentTrait` as used by App.tsx.  Modelled from the spec: the trait
catalog `src/data/studentTraits.ts` is not under src/; spec §4.2 describes
traits as organized into categories (`main`, `sub`) and polarities
(`positive`/`negative`/`neutral`) with a symmetric conflict relation, and
§4.3 gives per-attribute `[min,max]` stat-bound annotations. -/
structure StudentTrait where
  id : String
  category : TraitCategory
  polarity : TraitPolarity
  conflicts : List String := []
  statBounds : List (StudentStatKey × ℚ × ℚ) := []
deriving DecidableEq

/-- `studentTraitById.get` — lookup in the trait table. -/
def traitById (table : List StudentTrait) (traitId : String) : Option StudentTrait :=
  table.find? (fun t => t.id = traitId)

/-- `hasTraitConflict` from App.tsx (lines 194-199). -/
def hasTraitConflict (table : List StudentTrait) (leftId rightId : String) : Bool :=
  match traitById table leftId, traitById table rightId with
  | some left, some right => rightId ∈ left.conflicts ∨ leftId ∈ right.conflicts
  | _, _ => false

/-- `getTraitDelta` from App.tsx (lines 1566-1574). -/
def getTraitDelta (lo hi : ℚ) : ℚ :=
  if 80 ≤ lo then 3
  else if 70 ≤ lo then 2
  else if 60 ≤ lo then 1
  else if hi ≤ 25 then -3
  else if hi ≤ 35 then -2
  else if hi ≤ 50 then -1
  else 0

/-- `collectTraitInfluence` from App.tsx (lines 1576-1590): the summed
trait delta for one attribute key. -/
def collectTraitInfluence (traits : List StudentTrait) (key : StudentStatKey) : ℚ :=
  (traits.map (fun trait =>
    ((trait.statBounds.filter (fun b => b.1 = key)).map (fun b => getTraitDelta b.2.1 b.2.2)).sum)).sum

/-- `calcMentorDelta` from App.tsx (lines 1592-1595). -/
def calcMentorDelta (value step minDelta maxDelta : ℚ) : ℚ :=
  clampValue (jsRound ((value - 50) / step) : ℚ) minDelta maxDelta

/-- `applyMentorInfluence` from App.tsx (lines 1597-1619), parametrized by
the trait table. -/
def applyMentorInfluence (table : List StudentTrait) (mentee mentor : StudentPersona) :
    StudentPersona :=
  let mentorTraits := (mentor.traits.filterMap (traitById table)).filter (fun t => t.category = .sub)
  let traitDelta := collectTraitInfluence mentorTraits
  let diligenceDelta := calcMentorDelta mentor.diligence 15 (-2) 3
  let talentDelta := calcMentorDelta mentor.talent 15 (-2) 3
  let luckDelta := calcMentorDelta mentor.luck 18 (-1) 2
  let mentalDelta := calcMentorDelta mentor.mentalState 15 (-2) 2
  let stressDelta := calcMentorDelta mentor.stress 18 (-2) 2
  { mentee with
    diligence := clampValue (mentee.diligence + diligenceDelta + traitDelta .diligence) 0 100
    talent := clampValue (mentee.talent + talentDelta + traitDelta .talent) 0 100
    luck := clampValue (mentee.luck + luckDelta + traitDelta .luck) 0 100
    mentalState := clampValue (mentee.mentalState + mentalDelta + traitDelta .mentalState) 0 100
    stress := clampValue (mentee.stress + stressDelta + traitDelta .stress) 0 100 }

/-- The accumulator loop of `buildMentorshipPairs` (App.tsx lines
1626-1634): `usedMentors` threaded explicitly. -/
def buildPairsAux (studentIds : List String) (used : List String) :
    List StudentPersona → List (String × String)
  | [] => []
  | mentee :: rest =>
    match mentee.mentorId with
    | none => buildPairsAux studentIds used rest
    | some mentorId =>
      if mentorId = mentee.id ∨ mentorId ∉ studentIds ∨ mentorId ∈ used then
        buildPairsAux studentIds used rest
      else
        (mentorId, mentee.id) :: buildPairsAux studentIds (mentorId :: used) rest

/-- `buildMentorshipPairs` from App.tsx (lines 1621-1637): pairs are
`(mentorId, menteeId)`. -/
def buildMentorshipPairs (students : List StudentPersona) : List (String × String) :=
  buildPairsAux (students.map (fun s => s.id)) [] students

/-- One `pairs.forEach` step of `applyMentorshipInfluence` (App.tsx lines
1644-1652); the JS `Map` keyed by id is represented by the student list
itself (ids unique by the roster invariant). -/
def applyPairStep (table : List StudentTrait) (acc : List StudentPersona)
    (pair : String × String) : List StudentPersona :=
  match acc.find? (fun s => s.id = pair.1), acc.find? (fun s => s.id = pair.2) with
  | some mentor, some mentee =>
    acc.map (fun s =>
      if s.id = pair.2 then
        { applyMentorInfluence table mentee mentor with isBeingMentored := true, mentorId := some pair.1 }
      else s)
  | _, _ => acc

/-- `applyMentorshipInfluence` from App.tsx (lines 1639-1658). -/
def applyMentorshipInfluence (table : List StudentTrait) (students : List StudentPersona) :
    List StudentPersona :=
  let pairs := buildMentorshipPairs students
  let menteeIds : List String := pairs.map (fun p => p.2)
  let influenced := pairs.foldl (applyPairStep table) students
  influenced.map (fun student =>
    if student.id ∈ menteeIds then student
    else { student with isBeingMentored := false, mentorId := none })

/-- `ResearchProject` from App.tsx (lines 74-87). -/
structure ResearchProject where
  id : String
  title : String
  category : String
  progressLiterature : ℚ
  progressExperiment : ℚ
  progressResults : ℚ
  assignedStudentIds : List String
  createdYear : ℤ
  createdQuarter : ℤ
  completed : Bool
deriving DecidableEq

/-- `buildActiveProjectCountByStudentId` from App.tsx (lines 452-461),
read back as a count for one student id. -/
def activeProjectCount (projects : List ResearchProject) (studentId : String) : ℚ :=
  ((projects.filter (fun p => ¬ p.completed)).map
    (fun p => (p.assignedStudentIds.count studentId : ℚ))).sum

/-- `calcPaperProgressGain` from App.tsx (lines 463-491).  Oracle
arguments: `luckJitterU` and `jitterU` for the two `rollInRange` draws,
`burstU` for the burst-probability draw and `burstAmountU` for the burst
`rollInRange(-20, 20)` draw. -/
def calcPaperProgressGain (student : StudentPersona) (activeProjects : ℚ)
    (luckJitterU jitterU burstU burstAmountU : ℚ) : ℚ :=
  let talent := clampValue student.talent 0 100
  let diligence := clampValue student.diligence 0 100
  let luck := clampValue student.luck 0 100
  let stress := clampValue student.stress 0 100
  let mental := clampValue student.mentalState 0 100
  let core := diligence * 0.45 + talent * 0.4 + luck * 0.15
  let base0 := 20 + (core - 50) * 0.6
  let base1 := base0 + min activeProjects 2 * 2
  let base2 := if student.isBeingMentored then base1 + 2 else base1
  let base3 := if 85 ≤ mental then base2 + 1 else base2
  let base4 := if 70 ≤ stress then base3 - 6 else base3
  let base5 := if mental < 50 then base4 - 6 else base4
  let luckJitter := rollInRange (-2) 2 luckJitterU
  let jitter := rollInRange (-4) 4 jitterU + luckJitter
  let regular := clampValue (jsRound (base5 + jitter) : ℚ) 20 40
  let burstEligible := 90 ≤ talent ∧ 85 ≤ luck ∧ 75 ≤ mental ∧ stress ≤ 60
  if burstEligible then
    let chance := clampValue (0.06 + (luck - 85) / 220) 0.06 0.18
    if burstU < chance then clampValue (80 + rollInRange (-20) 20 burstAmountU) 60 100
    else regular
  else regular

/-- Whether the burst path is taken in `calcPaperProgressGain`. -/
def burstTaken (student : StudentPersona) (burstU : ℚ) : Prop :=
  let talent := clampValue student.talent 0 100
  let luck := clampValue student.luck 0 100
  let stress := clampValue student.stress 0 100
  let mental := clampValue student.mentalState 0 100
  (90 ≤ talent ∧ 85 ≤ luck ∧ 75 ≤ mental ∧ stress ≤ 60) ∧
  burstU < clampValue (0.06 + (luck - 85) / 220) 0.06 0.18

instance (student : StudentPersona) (burstU : ℚ) : Decidable (burstTaken student burstU) := by
  unfold burstTaken; infer_instance

/-- The per-student body of the `students.map` inside
`settleResearchPapers` (App.tsx lines 543-566): accumulate `gain` into
`contribution` (clamped to `[0,100]`), split off full hundreds as
submissions, carry the remainder, and charge mentalState/stress per
spawned submission. -/
def settleStudentProgress (student : StudentPersona) (progressGain : ℚ) : StudentPersona :=
  let combinedProgress := clampValue (student.contribution + progressGain) 0 100
  let submittedCount : ℚ := (jsFloor (combinedProgress / 100) : ℚ)
  let remainder := combinedProgress - submittedCount * 100
  if submittedCount = 0 then
    { student with contribution := remainder }
  else
    { student with
      contribution := remainder
      pendingPapers := student.pendingPapers + submittedCount
      mentalState := clampValue (student.mentalState - 2 * submittedCount) 0 100
      stress := clampValue (student.stress + 3 * submittedCount) 0 100 }

/-- `calcPaperDecisionChance` from App.tsx (lines 513-514). -/
def calcPaperDecisionChance (mentorStats : MentorStats) : ℚ :=
  clampValue (0.25 + mentorStats.admin.value / 250) 0.25 0.75

/-- The cursor walk selecting a weighted decision student
(App.tsx lines 573-580). -/
def decisionCursorWalk : ℚ → List StudentPersona → Option String
  | _, [] => none
  | cursor, s :: rest =>
    let cursor2 := cursor - s.pendingPapers
    if cursor2 ≤ 0 then some s.id else decisionCursorWalk cursor2 rest

/-- `settleResearchPapers` from App.tsx (lines 526-585): per-student
progress accrual and submission spawning, then the weighted pick of a
decision student.  Oracles: `gainRolls i` feeds `calcPaperProgressGain`
for the `i`-th student, `decisionRolls i` the per-student decision draw,
and `pickU` the weighted-cursor draw. -/
def settleResearchPapers (students : List StudentPersona) (mentorStats : MentorStats)
    (projects : List ResearchProject) (gainRolls : ℕ → ℚ × ℚ × ℚ × ℚ)
    (decisionRolls : ℕ → ℚ) (pickU : ℚ) : List StudentPersona × Option String :=
  let decisionChance := calcPaperDecisionChance mentorStats
  let updatedStudents := students.enum.map (fun (is : ℕ × StudentPersona) =>
    let rolls := gainRolls is.1
    let gain := calcPaperProgressGain is.2 (activeProjectCount projects is.2.id)
      rolls.1 rolls.2.1 rolls.2.2.1 rolls.2.2.2
    settleStudentProgress is.2 gain)
  let decisionCandidates := (updatedStudents.enum.filter (fun (is : ℕ × StudentPersona) =>
    0 < is.2.pendingPapers ∧ decisionRolls is.1 < decisionChance)).map (fun is => is.2)
  let decisionStudentId :=
    match decisionCandidates with
    | [] => none
    | first :: _ =>
      let totalWeight := (decisionCandidates.map (fun s => s.pendingPapers)).sum
      match decisionCursorWalk (pickU * totalWeight) decisionCandidates with
      | some sid => some sid
      | none => some first.id
  (updatedStudents, decisionStudentId)

/-- `DecisionOption.meta` (duck-typed in the source); every field
optional. -/
structure DecisionMeta where
  scoreDelta : Option ℚ := none
  luckDelta : Option ℚ := none
  progressDelta : Option ℚ := none
  venueType : Option PaperVenueType := none
  venueTier : Option PaperVenueTier := none
  reviewQuarters : Option ℤ := none
  reputationReward : Option ℚ := none
  fundingReward : Option ℚ := none
  acceptBonus : Option ℚ := none
  action : Option String := none
  studentAction : Option String := none
deriving DecidableEq

/-- `DecisionOption` from App.tsx (lines 2184-2198); `effects.stats` and
`effects.student` flattened into two optional fields. -/
structure DecisionOption where
  id : String
  label : String
  outcome : String
  hint : Option String := none
  effectsStats : Option StatDelta := none
  effectsStudent : Option StudentDelta := none
  meta : DecisionMeta := {}
deriving DecidableEq

/-- The kind-specific context of a `DecisionEvent` (App.tsx lines
2200-2260). -/
inductive DecisionCtx
  | projectVenue (projectPaperId projectId : String)
  | projectRevision (projectPaperId projectId : String) (revisionKind : RevisionKind)
  | grantReviewEvent (grantId : String)
  | grantExecutionEvent (grantId : String)
  | studentPaperEvent (studentId : String)
  | quarterEvent (studentId : Option String)
deriving DecidableEq

/-- `DecisionEvent` from App.tsx (lines 2200-2260). -/
structure DecisionEvent where
  id : String
  ctx : DecisionCtx
  title : String
  prompt : String
  options : List DecisionOption
  createdYear : ℤ
  createdQuarter : ℤ
deriving DecidableEq

/-- The session state threaded through the handlers: mentor stats, the
student roster, projects, grants, papers, the event log and the pending
decision backlog (display-only state such as result chips and team
messages is elided). -/
structure GameState where
  stats : MentorStats
  teamMembers : List StudentPersona
  projects : List ResearchProject
  grantApplications : List GrantState
  projectPapers : List ProjectPaper
  eventLog : List LogEvent
  pendingDecisions : List DecisionEvent
deriving DecidableEq

/-- `removeStudentFromAllAssignments` from App.tsx (lines 2511-2538):
drops the student from the roster, clears non-young-teacher mentor
back-references, and strips the id from every project, grant and paper. -/
def removeStudentFromAllAssignments (studentId : String) (state : GameState) : GameState :=
  { state with
    teamMembers := (state.teamMembers.filter (fun s => s.id ≠ studentId)).map (fun student =>
      if student.studentType = "YOUNG_TEACHER" then student
      else
        let mentorId := if student.mentorId = some studentId then none else student.mentorId
        let isBeingMentored := if mentorId.isSome then student.isBeingMentored else false
        { student with mentorId := mentorId, isBeingMentored := isBeingMentored })
    projects := state.projects.map (fun project =>
      { project with assignedStudentIds := project.assignedStudentIds.filter (fun i => i ≠ studentId) })
    grantApplications := state.grantApplications.map (fun grant =>
      { grant with assignedStudentIds := grant.assignedStudentIds.filter (fun i => i ≠ studentId) })
    projectPapers := state.projectPapers.map (fun paper =>
      if paper.leadStudentId = some studentId then { paper with leadStudentId := none } else paper) }

/-- `downgradeVenueTier` from App.tsx (lines 2296-2299). -/
def downgradeVenueTier : Option PaperVenueTier → PaperVenueTier
  | some .A => .B
  | _ => .C

/-- The student target ids of a decision (App.tsx lines 3009-3025),
computed from the pre-update state. -/
def decisionStudentTargets (state : GameState) (decision : DecisionEvent) : List String :=
  match decision.ctx with
  | .studentPaperEvent sid => [sid]
  | .projectVenue ppid _ | .projectRevision ppid _ _ =>
    match (state.projectPapers.find? (fun p => p.id = ppid)).bind (fun p => p.leadStudentId) with
    | some lead => [lead]
    | none => []
  | .grantReviewEvent gid | .grantExecutionEvent gid =>
    match state.grantApplications.find? (fun g => g.id = gid) with
    | some g => g.assignedStudentIds
    | none => []
  | .quarterEvent (some sid) => [sid]
  | .quarterEvent none => []

/-- `handleDecisionChoose` from App.tsx (lines 2979-3234) as a pure state
transformer.  An `optionId` that matches none of the decision's options
is a complete no-op; otherwise the option's effects and kind-specific
side effects are applied in source order and the decision leaves the
backlog. -/
def handleDecisionChoose (state : GameState) (decision : DecisionEvent) (optionId : String) :
    GameState :=
  match decision.options.find? (fun o => o.id = optionId) with
  | none => state
  | some option =>
    let s1 : GameState := { state with eventLog := state.eventLog ++ [{ title := decision.title, detail := option.outcome }] }
    let s2 : GameState := match option.effectsStats with
      | some d => { s1 with stats := applyMentorDelta s1.stats d }
      | none => s1
    let paperLeadStudentId : Option String := match decision.ctx with
      | .projectVenue ppid _ | .projectRevision ppid _ _ =>
        (state.projectPapers.find? (fun p => p.id = ppid)).bind (fun p => p.leadStudentId)
      | _ => none
    let studentTargetIds := decisionStudentTargets state decision
    let s3 : GameState := match option.effectsStudent with
      | some d =>
        if studentTargetIds ≠ [] then
          { s2 with teamMembers := s2.teamMembers.map (fun student =>
              if student.id ∈ studentTargetIds then applyStudentDelta student d else student) }
        else s2
      | none => s2
    let s4 : GameState := match decision.ctx with
      | .quarterEvent (some sid) =>
        if option.meta.studentAction = some "leave" then
          let removed := removeStudentFromAllAssignments sid s3
          { removed with eventLog := removed.eventLog ++ [{ title := "团队变动", detail := "" }] }
        else s3
      | _ => s3
    let s5 : GameState := match decision.ctx with
      | .grantReviewEvent gid =>
        let scoreDelta := option.meta.scoreDelta.getD 0
        let luckDelta := option.meta.luckDelta.getD 0
        if scoreDelta ≠ 0 ∨ luckDelta ≠ 0 then
          { s4 with grantApplications := s4.grantApplications.map (fun grant =>
              if grant.id = gid then
                { grant with scoreDelta := grant.scoreDelta + scoreDelta, luck := grant.luck + luckDelta }
              else grant) }
        else s4
      | _ => s4
    let s6 : GameState := match decision.ctx with
      | .grantExecutionEvent gid =>
        let progressDelta := option.meta.progressDelta.getD 0
        if progressDelta ≠ 0 then
          { s5 with grantApplications := s5.grantApplications.map (fun grant =>
              if grant.id = gid then
                { grant with paperProgress := clampValue (grant.paperProgress + progressDelta) 0 250 }
              else grant) }
        else s5
      | _ => s5
    let s7 : GameState := match decision.ctx with
      | .projectVenue ppid _ =>
        match option.meta.venueType, option.meta.venueTier with
        | some vt, some tier =>
          let reviewOffset := match option.meta.reviewQuarters with
            | some q => if 0 < q then q else 1
            | none => 1
          let due := addQuarters { year := state.stats.year, quarter := state.stats.quarter } reviewOffset
          let withPaper : GameState := { s6 with projectPapers := s6.projectPapers.map (fun paper =>
            if paper.id = ppid then
              { paper with
                venueType := some vt
                venueTier := some tier
                status := .underReview
                submittedYear := some state.stats.year
                submittedQuarter := some state.stats.quarter
                decisionDueYear := some due.year
                decisionDueQuarter := some due.quarter }
            else paper) }
          match paperLeadStudentId with
          | some lead =>
            { withPaper with teamMembers := withPaper.teamMembers.map (fun student =>
                if student.id = lead then
                  applyStudentDelta student { pendingPapers := some 1, mentalState := some (-2), stress := some 3 }
                else student) }
          | none => withPaper
        | _, _ => s6
      | _ => s6
    let s8 : GameState := match decision.ctx with
      | .projectRevision ppid _ revisionKind =>
        let reviewOffset := match option.meta.reviewQuarters with
          | some q => if 0 < q then q else 1
          | none => 1
        let due := addQuarters { year := state.stats.year, quarter := state.stats.quarter } reviewOffset
        let withPaper : GameState := { s7 with projectPapers := s7.projectPapers.map (fun paper =>
          if paper.id ≠ ppid then paper
          else if option.meta.action = some "withdraw" then
            { paper with status := .rejected, decisionDueYear := none, decisionDueQuarter := none }
          else if option.meta.action = some "downgrade" then
            { paper with
              venueTier := some (downgradeVenueTier paper.venueTier)
              status := .underReview
              decisionDueYear := some due.year
              decisionDueQuarter := some due.quarter }
          else if option.meta.action = some "revise" then
            { paper with
              status := .underReview
              decisionDueYear := some due.year
              decisionDueQuarter := some due.quarter
              revisionRound := paper.revisionRound + 1
              lastRevisionKind := some revisionKind }
          else paper) }
        match option.meta.action, paperLeadStudentId with
        | some a, some lead =>
          if a = "withdraw" then
            { withPaper with teamMembers := withPaper.teamMembers.map (fun student =>
                if student.id = lead then
                  applyStudentDelta student { pendingPapers := some (-1), mentalState := some (-2), stress := some 2 }
                else student) }
          else withPaper
        | _, _ => withPaper
      | _ => s7
    { s8 with pendingDecisions := state.pendingDecisions.filter (fun item => item.id ≠ decision.id) }

/-- `getTraitPoolsByCategory` from App.tsx (lines 201-211), read back for
one polarity bucket: ids in table order. -/
def traitPool (table : List StudentTrait) (category : TraitCategory)
    (polarity : TraitPolarity) : List String :=
  (table.filter (fun t => t.category = category ∧ t.polarity = polarity)).map (fun t => t.id)

/-- `weightedPick` from `pickWeightedTrait` (App.tsx lines 215-221):
main traits draw 80/20 positive/negative, sub traits 60/20/20. -/
def weightedBucket (category : TraitCategory) (roll : ℚ) : TraitPolarity :=
  match category with
  | .main => if roll < 0.8 then .positive else .negative
  | .sub => if roll < 0.6 then .positive else if roll < 0.8 then .negative else .neutral

/-- `pool[Math.floor(Math.random() * pool.length)]` — uniform pick from a
non-empty pool (junk default for out-of-range oracle values, which the
theorems exclude). -/
def uniformPick (pool : List String) (u : ℚ) : String :=
  pool.getD (jsFloor (u * pool.length)).toNat ""

/-- The bounded retry loop of `pickWeightedTrait` (App.tsx lines 222-231):
`k` indexes the oracle stream, `fuel` counts the remaining retries. -/
def pickWeightedTraitAux (table : List StudentTrait) (category : TraitCategory)
    (blocked : List String) (rolls : ℕ → ℚ × ℚ) : ℕ → ℕ → Option String
  | _, 0 => none
  | k, fuel + 1 =>
    let bucketRoll := (rolls k).1
    let idxRoll := (rolls k).2
    let pool := (traitPool table category (weightedBucket category bucketRoll)).filter
      (fun traitId => ¬ traitId ∈ blocked)
    if pool = [] then pickWeightedTraitAux table category blocked rolls (k + 1) fuel
    else
      let traitId := uniformPick pool idxRoll
      if blocked.any (fun selected => hasTraitConflict table selected traitId) then
        pickWeightedTraitAux table category blocked rolls (k + 1) fuel
      else some traitId

/-- `pickWeightedTrait` from App.tsx (lines 213-236): 24 weighted retries,
then fall back to the first non-blocked trait of the category in table
order (without a conflict check). -/
def pickWeightedTrait (table : List StudentTrait) (category : TraitCategory)
    (blocked : List String) (rolls : ℕ → ℚ × ℚ) : Option String :=
  match pickWeightedTraitAux table category blocked rolls 0 24 with
  | some traitId => some traitId
  | none =>
    (table.find? (fun t => t.category = category ∧ ¬ t.id ∈ blocked)).map (fun t => t.id)

/-- The bounded loop of `pickWeightedTraits` (App.tsx lines 238-251). -/
def pickWeightedTraitsAux (table : List StudentTrait) (category : TraitCategory)
    (blocked : List String) (count : ℕ) (rolls : ℕ → ℕ → ℚ × ℚ) :
    ℕ → ℕ → List String → List String
  | _, 0, picked => picked
  | k, fuel + 1, picked =>
    if count ≤ picked.length then picked
    else
      match pickWeightedTrait table category (blocked ++ picked) (rolls k) with
      | none => picked
      | some traitId =>
        if traitId ∈ picked then pickWeightedTraitsAux table category blocked count rolls (k + 1) fuel picked
        else if blocked.any (fun selected => hasTraitConflict table selected traitId) then
          pickWeightedTraitsAux table category blocked count rolls (k + 1) fuel picked
        else if picked.any (fun selected => hasTraitConflict table selected traitId) then
          pickWeightedTraitsAux table category blocked count rolls (k + 1) fuel picked
        else pickWeightedTraitsAux table category blocked count rolls (k + 1) fuel (picked ++ [traitId])

/-- `pickWeightedTraits` from App.tsx (lines 238-251). -/
def pickWeightedTraits (table : List StudentTrait) (category : TraitCategory) (count : ℕ)
    (blocked : List String) (rolls : ℕ → ℕ → ℚ × ℚ) : List String :=
  pickWeightedTraitsAux table category blocked count rolls 0 24 []

/-- `Array.from(new Set(l))` — dedup keeping first occurrences, as the JS
`Set` iteration order does. -/
def jsSetDedup (seen : List String) : List String → List String
  | [] => []
  | x :: rest =>
    if x ∈ seen then jsSetDedup seen rest else x :: jsSetDedup (x :: seen) rest

/-- `Array.from(new Set(traits ?? [])).filter(id => studentTraitById.has(id))`
from `resolveStudentTraits`. -/
def validUniqueTraits (table : List StudentTrait) (traits : Option (List String)) :
    List String :=
  (jsSetDedup [] (traits.getD [])).filter (fun traitId => (traitById table traitId).isSome)

/-- `uniqueTraits.find(id => byId.get(id)?.category === 'main')`. -/
def suppliedMainTrait (table : List StudentTrait) (uniqueTraits : List String) :
    Option String :=
  uniqueTraits.find? (fun traitId =>
    match traitById table traitId with
    | some t => t.category = .main
    | none => false)

/-- `uniqueTraits.filter(id => byId.get(id)?.category === 'sub')`. -/
def suppliedSubTraits (table : List StudentTrait) (uniqueTraits : List String) :
    List String :=
  uniqueTraits.filter (fun traitId =>
    match traitById table traitId with
    | some t => t.category = .sub
    | none => false)

/-- The `subTraits.forEach` reuse loop of `resolveStudentTraits`
(App.tsx lines 261-267): caller-supplied sub traits are kept up to the
desired count, checked for conflicts only against the resolved main. -/
def reuseSubTraits (table : List StudentTrait) (resolvedMain : Option String)
    (desiredSubCount : ℕ) (subTraits : List String) : List String :=
  subTraits.foldl (fun acc traitId =>
    if desiredSubCount ≤ acc.length then acc
    else if (match resolvedMain with
      | some m => hasTraitConflict table m traitId
      | none => false) then acc
    else acc ++ [traitId]) []

/-- `resolveStudentTraits` from App.tsx (lines 253-277).  Oracles:
`subCountU` for the 2-vs-3 sub-count draw, `mainRolls` for the main-trait
sampler, `subRolls` for the sub-trait filler, `fallbackRolls` for the
final empty-result fallback. -/
def resolveStudentTraits (table : List StudentTrait) (traits : Option (List String))
    (subCountU : ℚ) (mainRolls : ℕ → ℚ × ℚ) (subRolls fallbackRolls : ℕ → ℕ → ℚ × ℚ) :
    List String :=
  let uniqueTraits := validUniqueTraits table traits
  let mainTrait := suppliedMainTrait table uniqueTraits
  let subTraits := suppliedSubTraits table uniqueTraits
  let desiredSubCount : ℕ := if subCountU < 0.5 then 2 else 3
  let resolvedMain := match mainTrait with
    | some t => some t
    | none => pickWeightedTrait table .main [] mainRolls
  let resolvedSubs : List String := reuseSubTraits table resolvedMain desiredSubCount subTraits
  let resolvedSubs2 :=
    if resolvedSubs.length < desiredSubCount then
      resolvedSubs ++ pickWeightedTraits table .sub (desiredSubCount - resolvedSubs.length)
        (match resolvedMain with | some m => [m] | none => []) subRolls
    else resolvedSubs
  let picked := (match resolvedMain with | some m => [m] | none => []) ++ resolvedSubs2
  if picked ≠ [] then picked else pickWeightedTraits table .main 1 [] fallbackRolls

/-- A minimal trait table.  Modelled from the spec: the concrete catalog
`src/data/studentTraits.ts` is absent from src/; this table instantiates
exactly the structure the spec prescribes (main and sub categories, the
three polarities, a symmetric conflict relation — here the sub traits
`earlybird` and `nightowl` conflict). -/
def specTraitTable : List StudentTrait :=
  [ { id := "workaholic", category := .main, polarity := .positive }
  , { id := "slacker", category := .main, polarity := .negative, conflicts := ["workaholic"] }
  , { id := "earlybird", category := .sub, polarity := .positive, conflicts := ["nightowl"] }
  , { id := "nightowl", category := .sub, polarity := .neutral, conflicts := ["earlybird"] }
  , { id := "steadyhand", category := .sub, polarity := .positive }
  , { id := "deadline", category := .sub, polarity := .negative } ]

/-- Concrete mentor gauge used by witness instantiations. -/
def sampleGauge : Gauge := { value := 50, max := 100 }

/-- Concrete mentor stats used by witness instantiations. -/
def sampleStats : MentorStats :=
  { morale := sampleGauge, academia := sampleGauge, admin := sampleGauge
    integrity := sampleGauge, funding := 10000, reputation := 5, year := 1, quarter := 1 }

/-- Concrete student used by witness instantiations. -/
def sampleStudent : StudentPersona :=
  { id := "s1", name := "甲", studentType := "PHD", year := 1
    diligence := 60, stress := 30, talent := 55, luck := 40, hiddenLuck := 0
    contribution := 20, pendingPapers := 1, totalPapers := 0, mentalState := 70
    isBeingMentored := false, traits := [] }

/-- Concrete under-review paper used by witness instantiations. -/
def samplePaper : ProjectPaper :=
  { id := "pp-1", projectId := "proj-1", projectTitle := "课题甲"
    leadStudentId := some "s1", status := .underReview
    venueTier := some .B, venueType := some .journal
    decisionDueYear := some 1, decisionDueQuarter := some 1, revisionRound := 0 }

/-- Concrete student with `contribution = 90` used to exhibit the
overflow-discarding behavior of `settleStudentProgress` (high diligence,
talent 89 so the burst path is closed). -/
def overflowStudent : StudentPersona :=
  { id := "s9", name := "乙", studentType := "PHD", year := 2
    diligence := 100, stress := 0, talent := 89, luck := 0, hiddenLuck := 0
    contribution := 90, pendingPapers := 0, totalPapers := 0, mentalState := 100
    isBeingMentored := false, traits := [] }

/-- Concrete young-teacher roster entry holding a mentor back-reference to
student `s1`. -/
def ytStudent : StudentPersona :=
  { id := "yt1", name := "青", studentType := "YOUNG_TEACHER", year := 1
    diligence := 50, stress := 10, talent := 50, luck := 50, hiddenLuck := 0
    contribution := 0, pendingPapers := 0, totalPapers := 0, mentalState := 80
    isBeingMentored := true, traits := [], mentorId := some "s1" }

/-- Concrete active grant whose sole assigned student is `s1`. -/
def soloGrant : GrantState :=
  { id := "g8", type := "国自然", title := "课题丁", appliedYear := 1, appliedQuarter := 1
    reviewEndYear := 1, reviewEndQuarter := 3, status := .active
    baseScore := 70, scoreDelta := 0, luck := 0, tier := some .B
    assignedStudentIds := ["s1"], paperProgress := 0, paperIds := ["pp-8"] }

/-- Concrete paper of `soloGrant` led by `s1`. -/
def soloGrantPaper : ProjectPaper :=
  { id := "pp-8", projectId := "grant-g8", projectTitle := "课题丁"
    leadStudentId := some "s1", grantId := some "g8", status := .awaitingVenue
    revisionRound := 0 }

/-- Concrete session state for the dismissal scenario: `s1` is the sole
assignee of `soloGrant`, lead of `soloGrantPaper`, and the young teacher
`yt1` back-references `s1` as mentor. -/
def dismissalState : GameState :=
  { stats := sampleStats
    teamMembers := [sampleStudent, ytStudent]
    projects := []
    grantApplications := [soloGrant]
    projectPapers := [soloGrantPaper]
    eventLog := []
    pendingDecisions := [] }

/-- Concrete pending decision with a single option `opt-a`. -/
def sampleDecision : DecisionEvent :=
  { id := "dec-1", ctx := .quarterEvent none, title := "季度事件", prompt := "请选择"
    options := [{ id := "opt-a", label := "照常推进", outcome := "一切照旧。" }]
    createdYear := 1, createdQuarter := 1 }

/-- Concrete session state whose backlog holds `sampleDecision`. -/
def decisionState : GameState :=
  { stats := sampleStats, teamMembers := [sampleStudent], projects := []
    grantApplications := [], projectPapers := [], eventLog := []
    pendingDecisions := [sampleDecision] }

/-- Concrete roster in which students `a` and `b` both claim mentor
`m1`. -/
def rosterA : List StudentPersona :=
  [ { sampleStudent with id := "m1", name := "导" }
  , { sampleStudent with id := "a", name := "徒甲", mentorId := some "m1" }
  , { sampleStudent with id := "b", name := "徒乙", mentorId := some "m1" } ]

/-- Concrete mentor-stat delta (with out-of-range magnitudes) used by the
claim-3 witness. -/
def sampleStatDelta : StatDelta :=
  { morale := some 500, academia := some (-321), funding := some (-999999), reputation := some (-3) }

/-- Concrete student delta (with out-of-range magnitudes) used by the
claim-3 witness. -/
def sampleStudentDelta : StudentDelta :=
  { diligence := some (-250), stress := some 999, pendingPapers := some (-7) }

theorem clampValue_le (v lo hi : ℚ) (h : lo ≤ hi) : clampValue v lo hi ≤ hi := by
  unfold clampValue
  exact max_le h (min_le_left _ _)

theorem le_clampValue (v lo hi : ℚ) : lo ≤ clampValue v lo hi :=
  le_max_left _ _

theorem applyGaugeDelta_bounds (g : Gauge) (d : Option ℚ)
    (h0 : 0 ≤ g.value) (h1 : g.value ≤ g.max) :
    0 ≤ (applyGaugeDelta g d).value ∧ (applyGaugeDelta g d).value ≤ (applyGaugeDelta g d).max := by
  unfold applyGaugeDelta
  by_cases hd : numTruthy d = true
  · simp only [hd, if_pos]
    exact ⟨le_clampValue _ _ _, clampValue_le _ _ _ (le_trans h0 h1)⟩
  · simp only [hd]
    simp only [Bool.not_eq_true] at hd
    simp [hd]
    exact ⟨h0, h1⟩

theorem applyGaugeDelta_max (g : Gauge) (d : Option ℚ) :
    (applyGaugeDelta g d).max = g.max := by
  unfold applyGaugeDelta
  split <;> rfl

theorem applyGaugeDelta_none (g : Gauge) : applyGaugeDelta g none = g := rfl

theorem rollInRange_bounds (lo hi : ℤ) (u : ℚ) (h0 : 0 ≤ u) (h1 : u < 1)
    (hle : lo ≤ hi) :
    (lo : ℚ) ≤ rollInRange (lo : ℚ) (hi : ℚ) u ∧ rollInRange (lo : ℚ) (hi : ℚ) u ≤ (hi : ℚ) := by
  unfold rollInRange jsRound
  have hcast : (lo : ℚ) ≤ (hi : ℚ) := by exact_mod_cast hle
  have hd : (0 : ℚ) ≤ (hi : ℚ) - (lo : ℚ) := by linarith
  have hx0 : (lo : ℚ) ≤ (lo : ℚ) + u * ((hi : ℚ) - (lo : ℚ)) := by nlinarith
  have hx1 : (lo : ℚ) + u * ((hi : ℚ) - (lo : ℚ)) ≤ (hi : ℚ) := by nlinarith
  constructor
  · have hfl : lo ≤ ⌊(lo : ℚ) + u * ((hi : ℚ) - (lo : ℚ)) + 1 / 2⌋ := by
      rw [Int.le_floor]
      linarith
    exact_mod_cast hfl
  · have hfl : ⌊(lo : ℚ) + u * ((hi : ℚ) - (lo : ℚ)) + 1 / 2⌋ < hi + 1 := by
      rw [Int.floor_lt]
      push_cast
      linarith
    have hfl2 : ⌊(lo : ℚ) + u * ((hi : ℚ) - (lo : ℚ)) + 1 / 2⌋ ≤ hi := by omega
    exact_mod_cast hfl2

/-- C3: for every mentor state, student state and delta of any magnitude,
`applyMentorDelta` and `applyStudentDelta` keep each bounded gauge within
`[0, max]` (each student attribute within `[0,100]`), keep funding and
the paper counters non-negative, add reputation unclamped, and leave
every field absent from the delta unchanged. -/
theorem claim3_applyDelta_bounds_and_frame (stats : MentorStats) (delta : StatDelta)
    (student : StudentPersona) (sdelta : StudentDelta)
    (hm : mentorStatsInBounds stats) (hs : studentInBounds student) :
    mentorStatsInBounds (applyMentorDelta stats delta) ∧
    studentInBounds (applyStudentDelta student sdelta) ∧
    (applyMentorDelta stats delta).reputation = stats.reputation + delta.reputation.getD 0 ∧
    (delta.morale = none → (applyMentorDelta stats delta).morale = stats.morale) ∧
    (delta.academia = none → (applyMentorDelta stats delta).academia = stats.academia) ∧
    (delta.admin = none → (applyMentorDelta stats delta).admin = stats.admin) ∧
    (delta.integrity = none → (applyMentorDelta stats delta).integrity = stats.integrity) ∧
    (delta.funding = none → (applyMentorDelta stats delta).funding = stats.funding) ∧
    (delta.reputation = none → (applyMentorDelta stats delta).reputation = stats.reputation) ∧
    (sdelta.diligence = none → (applyStudentDelta student sdelta).diligence = student.diligence) ∧
    (sdelta.talent = none → (applyStudentDelta student sdelta).talent = student.talent) ∧
    (sdelta.luck = none → (applyStudentDelta student sdelta).luck = student.luck) ∧
    (sdelta.stress = none → (applyStudentDelta student sdelta).stress = student.stress) ∧
    (sdelta.mentalState = none → (applyStudentDelta student sdelta).mentalState = student.mentalState) ∧
    (sdelta.contribution = none → (applyStudentDelta student sdelta).contribution = student.contribution) ∧
    (sdelta.pendingPapers = none → (applyStudentDelta student sdelta).pendingPapers = student.pendingPapers) ∧
    (sdelta.totalPapers = none → (applyStudentDelta student sdelta).totalPapers = student.totalPapers) := by
  obtain ⟨hm1, hm2, hm3, hm4, hm5, hm6, hm7, hm8, hm9⟩ := hm
  obtain ⟨hs1, hs2, hs3, hs4, hs5, hs6, hs7, hs8, hs9, hs10, hs11, hs12, hs13, hs14⟩ := hs
  have hundred : (0 : ℚ) ≤ 100 := by norm_num
  refine ⟨?_, ?_, ?_, ?_, ?_, ?_, ?_, ?_, ?_, ?_, ?_, ?_, ?_, ?_, ?_, ?_, ?_⟩
  · refine ⟨?_, ?_, ?_, ?_, ?_, ?_, ?_, ?_, ?_⟩
    · exact (applyGaugeDelta_bounds stats.morale delta.morale hm1 hm2).1
    · exact (applyGaugeDelta_bounds stats.morale delta.morale hm1 hm2).2
    · exact (applyGaugeDelta_bounds stats.academia delta.academia hm3 hm4).1
    · exact (applyGaugeDelta_bounds stats.academia delta.academia hm3 hm4).2
    · exact (applyGaugeDelta_bounds stats.admin delta.admin hm5 hm6).1
    · exact (applyGaugeDelta_bounds stats.admin delta.admin hm5 hm6).2
    · exact (applyGaugeDelta_bounds stats.integrity delta.integrity hm7 hm8).1
    · exact (applyGaugeDelta_bounds stats.integrity delta.integrity hm7 hm8).2
    · show 0 ≤ (if numTruthy delta.funding then max (stats.funding + delta.funding.getD 0) 0 else stats.funding)
      split
      · exact le_max_right _ _
      · exact hm9
  · refine ⟨?_, ?_, ?_, ?_, ?_, ?_, ?_, ?_, ?_, ?_, ?_, ?_, ?_, ?_⟩ <;>
      simp only [applyStudentDelta]
    · cases hf : sdelta.diligence with
      | none => exact hs1
      | some d => exact le_clampValue _ _ _
    · cases hf : sdelta.diligence with
      | none => exact hs2
      | some d => exact clampValue_le _ _ _ hundred
    · cases hf : sdelta.talent with
      | none => exact hs3
      | some d => exact le_clampValue _ _ _
    · cases hf : sdelta.talent with
      | none => exact hs4
      | some d => exact clampValue_le _ _ _ hundred
    · cases hf : sdelta.luck with
      | none => exact hs5
      | some d => exact le_clampValue _ _ _
    · cases hf : sdelta.luck with
      | none => exact hs6
      | some d => exact clampValue_le _ _ _ hundred
    · cases hf : sdelta.stress with
      | none => exact hs7
      | some d => exact le_clampValue _ _ _
    · cases hf : sdelta.stress with
      | none => exact hs8
      | some d => exact clampValue_le _ _ _ hundred
    · cases hf : sdelta.mentalState with
      | none => exact hs9
      | some d => exact le_clampValue _ _ _
    · cases hf : sdelta.mentalState with
      | none => exact hs10
      | some d => exact clampValue_le _ _ _ hundred
    · cases hf : sdelta.contribution with
      | none => exact hs11
      | some d => exact le_clampValue _ _ _
    · cases hf : sdelta.contribution with
      | none => exact hs12
      | some d => exact clampValue_le _ _ _ hundred
    · cases hf : sdelta.pendingPapers with
      | none => exact hs13
      | some d => exact le_max_right _ _
    · cases hf : sdelta.totalPapers with
      | none => exact hs14
      | some d => exact le_max_right _ _
  · show (if numTruthy delta.reputation then stats.reputation + delta.reputation.getD 0 else stats.reputation) = _
    cases hrep : delta.reputation with
    | none => simp [numTruthy]
    | some r =>
      by_cases hr : r = 0
      · simp [numTruthy, hr]
      · simp [numTruthy, hr]
  · intro h
    show applyGaugeDelta stats.morale delta.morale = stats.morale
    rw [h]
    exact applyGaugeDelta_none _
  · intro h
    show applyGaugeDelta stats.academia delta.academia = stats.academia
    rw [h]
    exact applyGaugeDelta_none _
  · intro h
    show applyGaugeDelta stats.admin delta.admin = stats.admin
    rw [h]
    exact applyGaugeDelta_none _
  · intro h
    show applyGaugeDelta stats.integrity delta.integrity = stats.integrity
    rw [h]
    exact applyGaugeDelta_none _
  · intro h
    show (if numTruthy delta.funding then _ else stats.funding) = stats.funding
    rw [h]
    rfl
  · intro h
    show (if numTruthy delta.reputation then _ else stats.reputation) = stats.reputation
    rw [h]
    rfl
  · intro h
    simp only [applyStudentDelta, h]
  · intro h
    simp only [applyStudentDelta, h]
  · intro h
    simp only [applyStudentDelta, h]
  · intro h
    simp only [applyStudentDelta, h]
  · intro h
    simp only [applyStudentDelta, h]
  · intro h
    simp only [applyStudentDelta, h]
  · intro h
    simp only [applyStudentDelta, h]
  · intro h
    simp only [applyStudentDelta, h]

theorem claim3_applyDelta_witness :
    mentorStatsInBounds sampleStats ∧ studentInBounds sampleStudent ∧
    mentorStatsInBounds (applyMentorDelta sampleStats sampleStatDelta) ∧
    studentInBounds (applyStudentDelta sampleStudent sampleStudentDelta) :=
  ⟨by decide, by decide,
   (claim3_applyDelta_bounds_and_frame sampleStats sampleStatDelta sampleStudent
     sampleStudentDelta (by decide) (by decide)).1,
   (claim3_applyDelta_bounds_and_frame sampleStats sampleStatDelta sampleStudent
     sampleStudentDelta (by decide) (by decide)).2.1⟩

/-- C9: a paper whose status is anything other than `underReview` (in
particular the terminal `accepted`/`rejected` states) passes through the
decision-due settlement completely unchanged, with no emitted deltas,
decisions or events. -/
theorem claim9_terminal_paper_untouched (students : List StudentPersona)
    (mentorStats : MentorStats) (currentStamp : Stamp) (roll majorRoll : ℚ)
    (paper : ProjectPaper) (h : paper.status ≠ .underReview) :
    settleProjectPaperOne students mentorStats currentStamp roll majorRoll paper =
      { paper := paper, statDelta := [], studentDeltas := []
        revisionDecisionQueued := false, eventTitles := [] } := by
  unfold settleProjectPaperOne
  rw [if_pos h]

theorem claim9_terminal_paper_untouched_witness :
    ({ samplePaper with status := .accepted } : ProjectPaper).status ≠ .underReview ∧
    settleProjectPaperOne [] sampleStats { year := 5, quarter := 3 } 0 0
        { samplePaper with status := .accepted } =
      { paper := { samplePaper with status := .accepted }, statDelta := [], studentDeltas := []
        revisionDecisionQueued := false, eventTitles := [] } :=
  ⟨by decide,
   claim9_terminal_paper_untouched [] sampleStats { year := 5, quarter := 3 } 0 0
     { samplePaper with status := .accepted } (by decide)⟩

/-- C1: for an `underReview` paper whose decision due date has been
reached, the verdict draw is made against
`acceptChance = clamp(baseAcceptance[tier] + academiaBoost + leadBoost +
revisionBoost − stressPenalty, 0.06, 0.85)` with base rates
`{A: 0.18, B: 0.28, C: 0.42}`; when `acceptChance + revisionChance` would
exceed 0.95 only `revisionChance` is shrunk (to `0.95 − acceptChance`),
`acceptChance` never is, and the two chances always sum to at most 0.95. -/
theorem claim1_verdict_chances (students : List StudentPersona) (mentorStats : MentorStats)
    (currentStamp : Stamp) (roll majorRoll : ℚ) (paper : ProjectPaper) (y q : ℤ)
    (hstatus : paper.status = .underReview)
    (hy : paper.decisionDueYear = some y) (hq : paper.decisionDueQuarter = some q)
    (hy0 : y ≠ 0) (hq0 : q ≠ 0)
    (hdue : isQuarterReached currentStamp { year := y, quarter := q } = true) :
    paperAcceptChance students mentorStats paper
      = clampValue (baseAcceptance (effectiveVenueTier paper) + mentorStats.academia.value / 260
          + (match resolveLeadStudent students paper with
             | some l => (l.talent + l.diligence) / 650
             | none => 0)
          + paper.revisionRound * 0.06
          - (match resolveLeadStudent students paper with
             | some l => l.stress / 650
             | none => 0)) 0.06 0.85
    ∧ baseAcceptance .A = 0.18 ∧ baseAcceptance .B = 0.28 ∧ baseAcceptance .C = 0.42
    ∧ paperAcceptChance students mentorStats paper + paperRevisionChance students mentorStats paper ≤ 0.95
    ∧ (0.95 < paperAcceptChance students mentorStats paper + paperRevisionChanceRaw paper →
        paperRevisionChance students mentorStats paper
          = 0.95 - paperAcceptChance students mentorStats paper)
    ∧ (paperAcceptChance students mentorStats paper + paperRevisionChanceRaw paper ≤ 0.95 →
        paperRevisionChance students mentorStats paper = paperRevisionChanceRaw paper)
    ∧ ((settleProjectPaperOne students mentorStats currentStamp roll majorRoll paper).paper.status
          = .accepted
        ↔ roll < paperAcceptChance students mentorStats paper) := by
  refine ⟨rfl, rfl, rfl, rfl, ?_, ?_, ?_, ?_⟩
  · unfold paperRevisionChance
    dsimp only
    split_ifs with hc
    · linarith
    · linarith [not_lt.mp hc]
  · intro hgt
    unfold paperRevisionChance
    dsimp only
    rw [if_pos hgt]
  · intro hle
    unfold paperRevisionChance
    dsimp only
    rw [if_neg (not_lt.mpr hle)]
  · unfold settleProjectPaperOne
    rw [if_neg (by simp [hstatus])]
    rw [if_neg (by simp [hy, hq, intTruthy, hy0, hq0])]
    rw [if_neg (by simp [hy, hq, hdue])]
    dsimp only
    split_ifs with h1 h2 <;> simp [h1]

theorem claim1_verdict_chances_witness :
    samplePaper.status = .underReview ∧
    samplePaper.decisionDueYear = some 1 ∧ samplePaper.decisionDueQuarter = some 1 ∧
    isQuarterReached { year := 1, quarter := 1 } { year := 1, quarter := 1 } = true ∧
    (paperAcceptChance [sampleStudent] sampleStats samplePaper
        + paperRevisionChance [sampleStudent] sampleStats samplePaper ≤ 0.95 ∧
      ((settleProjectPaperOne [sampleStudent] sampleStats { year := 1, quarter := 1 } 0.1 0
            samplePaper).paper.status = .accepted
        ↔ (0.1 : ℚ) < paperAcceptChance [sampleStudent] sampleStats samplePaper)) := by
  refine ⟨by decide, by decide, by decide, by decide, ?_, ?_⟩
  · exact (claim1_verdict_chances [sampleStudent] sampleStats { year := 1, quarter := 1 }
      0.1 0 samplePaper 1 1 rfl rfl rfl (by decide) (by decide) (by decide)).2.2.2.2.1
  · exact (claim1_verdict_chances [sampleStudent] sampleStats { year := 1, quarter := 1 }
      0.1 0 samplePaper 1 1 rfl rfl rfl (by decide) (by decide) (by decide)).2.2.2.2.2.2.2

theorem rollInRange_neg3_3 (u : ℚ) (h0 : 0 ≤ u) (h1 : u < 1) :
    (-3 : ℚ) ≤ rollInRange (-3) 3 u ∧ rollInRange (-3) 3 u ≤ 3 := by
  have hb := rollInRange_bounds (-3) 3 u h0 h1 (by norm_num)
  push_cast at hb
  exact hb

/-- Characterization of `settleGrantReviewing` at or after the review
deadline: the final score is `baseScore + scoreDelta + luck` (after the
quarterly luck tick) and decides rejection or the awarded tier. -/
theorem settleGrantReviewing_deadline_spec (students : List StudentPersona)
    (config : GrantConfig) (currentStamp decisionStamp : Stamp)
    (luckU eventU repU : ℚ) (freshId : String) (grant : GrantState)
    (hdue : isQuarterReached currentStamp
      { year := grant.reviewEndYear, quarter := grant.reviewEndQuarter } = true) :
    let f := grant.baseScore + grant.scoreDelta + (grant.luck + rollInRange (-3) 3 luckU)
    let r := settleGrantReviewing students config currentStamp decisionStamp
      luckU eventU repU freshId grant
    (f < config.scoreBands.rejectBelow →
      r.grant.status = .rejected ∧ r.grant.tier = grant.tier) ∧
    (¬ f < config.scoreBands.rejectBelow →
      r.grant.status = .active ∧
      r.grant.tier = some (if config.scoreBands.tierA ≤ f then GrantFundingTier.A
        else if config.scoreBands.tierB ≤ f then GrantFundingTier.B
        else GrantFundingTier.C)) := by
  intro f r
  show (f < _ → _) ∧ _
  unfold r settleGrantReviewing
  rw [if_neg (by simp [hdue])]
  dsimp only
  constructor
  · intro hrej
    rw [if_pos hrej]
    exact ⟨rfl, rfl⟩
  · intro hok
    rw [if_neg hok]
    exact ⟨rfl, rfl⟩

/-- C2: a reviewing grant with `baseScore = 70`, `scoreDelta = 0`,
`luck = 0`, settled at or after its review deadline against score bands
`{rejectBelow: 55, tierB: 65, tierA: 80}`, becomes `active` with tier B
for every random outcome of the settlement pass, including the
deadline-quarter luck tick. -/
theorem claim2_scenario_tierB (students : List StudentPersona) (config : GrantConfig)
    (currentStamp decisionStamp : Stamp) (luckU eventU repU : ℚ) (freshId : String)
    (grant : GrantState)
    (h0 : 0 ≤ luckU) (h1 : luckU < 1)
    (hstatus : grant.status = .reviewing)
    (hbase : grant.baseScore = 70) (hdelta : grant.scoreDelta = 0) (hluck : grant.luck = 0)
    (hbands : config.scoreBands = { rejectBelow := 55, tierB := 65, tierA := 80 })
    (hdue : isQuarterReached currentStamp
      { year := grant.reviewEndYear, quarter := grant.reviewEndQuarter } = true) :
    (settleGrantReviewing students config currentStamp decisionStamp
        luckU eventU repU freshId grant).grant.status = .active ∧
    (settleGrantReviewing students config currentStamp decisionStamp
        luckU eventU repU freshId grant).grant.tier = some .B := by
  have hb := rollInRange_neg3_3 luckU h0 h1
  have hspec := settleGrantReviewing_deadline_spec students config currentStamp decisionStamp
    luckU eventU repU freshId grant hdue
  dsimp only at hspec
  rw [hbase, hdelta, hluck, hbands] at hspec
  dsimp only at hspec
  have hok := hspec.2 (by linarith [hb.1])
  refine ⟨hok.1, ?_⟩
  rw [hok.2]
  rw [if_neg (by linarith [hb.2])]
  rw [if_pos (by linarith [hb.1])]

theorem claim2_scenario_tierB_witness :
    (0 : ℚ) ≤ 0.5 ∧ (0.5 : ℚ) < 1 ∧
    (settleGrantReviewing [] grantConfigNatural { year := 2, quarter := 1 } { year := 2, quarter := 1 }
        0.5 0 0 "pp-new"
        { id := "g1", type := "国自然", title := "课题乙", appliedYear := 1, appliedQuarter := 1
          reviewEndYear := 1, reviewEndQuarter := 3, status := .reviewing
          baseScore := 70, scoreDelta := 0, luck := 0
          assignedStudentIds := [], paperProgress := 0, paperIds := [] }).grant.status = .active ∧
    (settleGrantReviewing [] grantConfigNatural { year := 2, quarter := 1 } { year := 2, quarter := 1 }
        0.5 0 0 "pp-new"
        { id := "g1", type := "国自然", title := "课题乙", appliedYear := 1, appliedQuarter := 1
          reviewEndYear := 1, reviewEndQuarter := 3, status := .reviewing
          baseScore := 70, scoreDelta := 0, luck := 0
          assignedStudentIds := [], paperProgress := 0, paperIds := [] }).grant.tier = some .B := by
  refine ⟨by norm_num, by norm_num, ?_, ?_⟩
  · exact (claim2_scenario_tierB [] grantConfigNatural { year := 2, quarter := 1 }
      { year := 2, quarter := 1 } 0.5 0 0 "pp-new" _
      (by norm_num) (by norm_num) rfl rfl rfl rfl rfl (by decide)).1
  · exact (claim2_scenario_tierB [] grantConfigNatural { year := 2, quarter := 1 }
      { year := 2, quarter := 1 } 0.5 0 0 "pp-new" _
      (by norm_num) (by norm_num) rfl rfl rfl rfl rfl (by decide)).2

/-- C7: grant review settlement is monotone in `scoreDelta`: with
identical inputs and random draws, raising `scoreDelta` by `d > 0` never
produces a worse review outcome (ordering
`rejected < active C < active B < active A`); in particular a grant that
resolved to `active` is never moved to `rejected`. -/
theorem claim7_scoreDelta_monotone (students : List StudentPersona) (config : GrantConfig)
    (currentStamp decisionStamp : Stamp) (luckU eventU repU : ℚ) (freshId : String)
    (grant : GrantState) (d : ℚ) (hd : 0 < d)
    (hdue : isQuarterReached currentStamp
      { year := grant.reviewEndYear, quarter := grant.reviewEndQuarter } = true) :
    reviewOutcomeRank (settleGrantReviewing students config currentStamp decisionStamp
        luckU eventU repU freshId grant).grant ≤
      reviewOutcomeRank (settleGrantReviewing students config currentStamp decisionStamp
        luckU eventU repU freshId { grant with scoreDelta := grant.scoreDelta + d }).grant ∧
    ((settleGrantReviewing students config currentStamp decisionStamp
        luckU eventU repU freshId grant).grant.status = .active →
      (settleGrantReviewing students config currentStamp decisionStamp
        luckU eventU repU freshId { grant with scoreDelta := grant.scoreDelta + d }).grant.status
        = .active) := by
  have hspec1 := settleGrantReviewing_deadline_spec students config currentStamp decisionStamp
    luckU eventU repU freshId grant hdue
  have hspec2 := settleGrantReviewing_deadline_spec students config currentStamp decisionStamp
    luckU eventU repU freshId { grant with scoreDelta := grant.scoreDelta + d } (by exact hdue)
  dsimp only at hspec1 hspec2
  by_cases hrej1 : grant.baseScore + grant.scoreDelta + (grant.luck + rollInRange (-3) 3 luckU)
      < config.scoreBands.rejectBelow
  · obtain ⟨hs1, _⟩ := hspec1.1 hrej1
    constructor
    · simp [reviewOutcomeRank, hs1]
    · intro hact
      rw [hs1] at hact
      exact absurd hact (by simp)
  · obtain ⟨hs1, ht1⟩ := hspec1.2 hrej1
    have hrej2 : ¬ grant.baseScore + (grant.scoreDelta + d) + (grant.luck + rollInRange (-3) 3 luckU)
        < config.scoreBands.rejectBelow := by
      intro hcon
      exact hrej1 (by linarith)
    obtain ⟨hs2, ht2⟩ := hspec2.2 hrej2
    refine ⟨?_, fun _ => hs2⟩
    by_cases hA1 : config.scoreBands.tierA ≤
        grant.baseScore + grant.scoreDelta + (grant.luck + rollInRange (-3) 3 luckU)
    · have hA2 : config.scoreBands.tierA ≤
          grant.baseScore + (grant.scoreDelta + d) + (grant.luck + rollInRange (-3) 3 luckU) := by
        linarith
      rw [if_pos hA1] at ht1
      rw [if_pos hA2] at ht2
      simp [reviewOutcomeRank, hs1, hs2, ht1, ht2]
    · rw [if_neg hA1] at ht1
      by_cases hB1 : config.scoreBands.tierB ≤
          grant.baseScore + grant.scoreDelta + (grant.luck + rollInRange (-3) 3 luckU)
      · have hB2 : config.scoreBands.tierB ≤
            grant.baseScore + (grant.scoreDelta + d) + (grant.luck + rollInRange (-3) 3 luckU) := by
          linarith
        rw [if_pos hB1] at ht1
        by_cases hA2 : config.scoreBands.tierA ≤
            grant.baseScore + (grant.scoreDelta + d) + (grant.luck + rollInRange (-3) 3 luckU)
        · rw [if_pos hA2] at ht2
          simp [reviewOutcomeRank, hs1, hs2, ht1, ht2]
        · rw [if_neg hA2, if_pos hB2] at ht2
          simp [reviewOutcomeRank, hs1, hs2, ht1, ht2]
      · rw [if_neg hB1] at ht1
        have hone : reviewOutcomeRank (settleGrantReviewing students config currentStamp
            decisionStamp luckU eventU repU freshId grant).grant = 1 := by
          simp [reviewOutcomeRank, hs1, ht1]
        rw [hone]
        by_cases hA2 : config.scoreBands.tierA ≤
            grant.baseScore + (grant.scoreDelta + d) + (grant.luck + rollInRange (-3) 3 luckU)
        · rw [if_pos hA2] at ht2
          simp [reviewOutcomeRank, hs2, ht2]
        · rw [if_neg hA2] at ht2
          by_cases hB2 : config.scoreBands.tierB ≤
              grant.baseScore + (grant.scoreDelta + d) + (grant.luck + rollInRange (-3) 3 luckU)
          · rw [if_pos hB2] at ht2
            simp [reviewOutcomeRank, hs2, ht2]
          · rw [if_neg hB2] at ht2
            simp [reviewOutcomeRank, hs2, ht2]

theorem claim7_scoreDelta_monotone_witness :
    (0 : ℚ) < 40 ∧
    reviewOutcomeRank (settleGrantReviewing [] grantConfigNatural { year := 2, quarter := 1 }
        { year := 2, quarter := 1 } 0 0 0 "pp-new"
        { id := "g2", type := "国自然", title := "课题丙", appliedYear := 1, appliedQuarter := 1
          reviewEndYear := 1, reviewEndQuarter := 3, status := .reviewing
          baseScore := 50, scoreDelta := 0, luck := 0
          assignedStudentIds := [], paperProgress := 0, paperIds := [] }).grant ≤
      reviewOutcomeRank (settleGrantReviewing [] grantConfigNatural { year := 2, quarter := 1 }
        { year := 2, quarter := 1 } 0 0 0 "pp-new"
        { id := "g2", type := "国自然", title := "课题丙", appliedYear := 1, appliedQuarter := 1
          reviewEndYear := 1, reviewEndQuarter := 3, status := .reviewing
          baseScore := 50, scoreDelta := 0 + 40, luck := 0
          assignedStudentIds := [], paperProgress := 0, paperIds := [] }).grant := by
  refine ⟨by norm_num, ?_⟩
  exact (claim7_scoreDelta_monotone [] grantConfigNatural { year := 2, quarter := 1 }
    { year := 2, quarter := 1 } 0 0 0 "pp-new"
    { id := "g2", type := "国自然", title := "课题丙", appliedYear := 1, appliedQuarter := 1
      reviewEndYear := 1, reviewEndQuarter := 3, status := .reviewing
      baseScore := 50, scoreDelta := 0, luck := 0
      assignedStudentIds := [], paperProgress := 0, paperIds := [] }
    40 (by norm_num) (by decide)).1

/-- C6 counterexample: with `contribution = 90` and a quarterly gain of 40
(inside the claimed `[20,40]` band), the code clamps the accumulated
contribution to 100 before splitting, so the spawned submission carries a
remainder of 0 — not the 30 the claim's "remainder carried over" demands. -/
theorem claim6_counterexample :
    calcPaperProgressGain overflowStudent 0 0.99 0.99 0 0 = 40 ∧
    overflowStudent.contribution = 90 ∧
    (settleStudentProgress overflowStudent
        (calcPaperProgressGain overflowStudent 0 0.99 0.99 0 0)).pendingPapers = 1 ∧
    (settleStudentProgress overflowStudent
        (calcPaperProgressGain overflowStudent 0 0.99 0.99 0 0)).contribution = 0 ∧
    (settleStudentProgress overflowStudent
        (calcPaperProgressGain overflowStudent 0 0.99 0.99 0 0)).contribution ≠
      overflowStudent.contribution + calcPaperProgressGain overflowStudent 0 0.99 0.99 0 0 - 100 := by
  have hgain : calcPaperProgressGain overflowStudent 0 0.99 0.99 0 0 = 40 := by
    unfold calcPaperProgressGain rollInRange jsRound clampValue
    norm_num [overflowStudent, min_def, max_def]
  have hpend : (settleStudentProgress overflowStudent 40).pendingPapers = 1 := by
    unfold settleStudentProgress jsFloor clampValue
    norm_num [overflowStudent, min_def, max_def]
  have hcontr : (settleStudentProgress overflowStudent 40).contribution = 0 := by
    unfold settleStudentProgress jsFloor clampValue
    norm_num [overflowStudent, min_def, max_def]
  refine ⟨hgain, rfl, ?_, ?_, ?_⟩
  · rw [hgain]
    exact hpend
  · rw [hgain]
    exact hcontr
  · rw [hgain, hcontr]
    norm_num [overflowStudent]

/-- C6 (amended): the quarterly progress gain is an integer in `[20,40]`
off the burst path and in `[60,100]` on it (burst requiring talent ≥ 90,
luck ≥ 85, mentalState ≥ 75, stress ≤ 60 and a draw below
`clamp(0.06+(luck−85)/220, 0.06, 0.18)`); in `settleResearchPapers` the
accumulated contribution is clamped to `[0,100]` before splitting, so a
quarter spawns one submission exactly when `contribution + gain ≥ 100`
(never more than one), the carried remainder is then 0 (overflow beyond
100 is discarded), and each spawned unit costs mentalState −2 and
stress +3; with no spawn the whole sum is carried. -/
theorem claim6_progress_gain_and_submission (student : StudentPersona) (activeProjects : ℚ)
    (u1 u2 u3 u4 : ℚ)
    (hc0 : 0 ≤ student.contribution) (hc1 : student.contribution ≤ 100) :
    (∃ n : ℤ, calcPaperProgressGain student activeProjects u1 u2 u3 u4 = n) ∧
    (¬ burstTaken student u3 →
      20 ≤ calcPaperProgressGain student activeProjects u1 u2 u3 u4 ∧
      calcPaperProgressGain student activeProjects u1 u2 u3 u4 ≤ 40) ∧
    (burstTaken student u3 →
      60 ≤ calcPaperProgressGain student activeProjects u1 u2 u3 u4 ∧
      calcPaperProgressGain student activeProjects u1 u2 u3 u4 ≤ 100) ∧
    (student.contribution + calcPaperProgressGain student activeProjects u1 u2 u3 u4 < 100 →
      (settleStudentProgress student (calcPaperProgressGain student activeProjects u1 u2 u3 u4)).contribution
          = student.contribution + calcPaperProgressGain student activeProjects u1 u2 u3 u4 ∧
      (settleStudentProgress student (calcPaperProgressGain student activeProjects u1 u2 u3 u4)).pendingPapers
          = student.pendingPapers ∧
      (settleStudentProgress student (calcPaperProgressGain student activeProjects u1 u2 u3 u4)).mentalState
          = student.mentalState ∧
      (settleStudentProgress student (calcPaperProgressGain student activeProjects u1 u2 u3 u4)).stress
          = student.stress) ∧
    (100 ≤ student.contribution + calcPaperProgressGain student activeProjects u1 u2 u3 u4 →
      (settleStudentProgress student (calcPaperProgressGain student activeProjects u1 u2 u3 u4)).contribution
          = 0 ∧
      (settleStudentProgress student (calcPaperProgressGain student activeProjects u1 u2 u3 u4)).pendingPapers
          = student.pendingPapers + 1 ∧
      (settleStudentProgress student (calcPaperProgressGain student activeProjects u1 u2 u3 u4)).mentalState
          = clampValue (student.mentalState - 2) 0 100 ∧
      (settleStudentProgress student (calcPaperProgressGain student activeProjects u1 u2 u3 u4)).stress
          = clampValue (student.stress + 3) 0 100) := by
  set g := calcPaperProgressGain student activeProjects u1 u2 u3 u4 with hg
  have hclamp : ∀ (lo hi r : ℚ), (∃ a : ℤ, lo = a) → (∃ b : ℤ, hi = b) →
      (∃ k : ℤ, r = k) → ∃ n : ℤ, clampValue r lo hi = n := by
    rintro lo hi r ⟨a, rfl⟩ ⟨b, rfl⟩ ⟨k, rfl⟩
    refine ⟨max a (min b k), ?_⟩
    unfold clampValue
    push_cast
    rfl
  have hshift : ∀ (c : ℚ), (∃ a : ℤ, c = a) → ∀ m : ℤ, ∃ k : ℤ, c + (m : ℚ) = k := by
    rintro c ⟨a, rfl⟩ m
    exact ⟨a + m, by push_cast; ring⟩
  have hif : ∀ (p : Prop) (inst : Decidable p) (x y : ℚ),
      (∃ n : ℤ, x = n) → (∃ n : ℤ, y = n) → ∃ n : ℤ, (@ite ℚ p inst x y) = n := by
    intro p inst x y hx hy
    by_cases hp : p
    · rw [if_pos hp]
      exact hx
    · rw [if_neg hp]
      exact hy
  have hint : ∃ n : ℤ, g = n := by
    rw [hg]
    unfold calcPaperProgressGain rollInRange
    dsimp only
    refine hif _ _ _ _ (hif _ _ _ _ ?_ ?_) ?_
    · exact hclamp 60 100 _ ⟨60, by norm_num⟩ ⟨100, by norm_num⟩
        (hshift 80 ⟨80, by norm_num⟩ (jsRound _))
    · exact hclamp 20 40 _ ⟨20, by norm_num⟩ ⟨40, by norm_num⟩ ⟨jsRound _, rfl⟩
    · exact hclamp 20 40 _ ⟨20, by norm_num⟩ ⟨40, by norm_num⟩ ⟨jsRound _, rfl⟩
  have hreg : ∀ r : ℚ, 20 ≤ clampValue r 20 40 ∧ clampValue r 20 40 ≤ 40 := fun r =>
    ⟨le_clampValue _ _ _, clampValue_le _ _ _ (by norm_num)⟩
  have hite : ∀ (p q : Prop) (ip : Decidable p) (iq : Decidable q) (x y : ℚ),
      ¬ (p ∧ q) → (@ite ℚ p ip (@ite ℚ q iq x y) y) = y := by
    intro p q ip iq x y hnpq
    by_cases hp : p
    · rw [if_pos hp, if_neg (fun hq => hnpq ⟨hp, hq⟩)]
    · rw [if_neg hp]
  have hnb : ¬ burstTaken student u3 → 20 ≤ g ∧ g ≤ 40 := by
    intro hnbt
    rw [hg]
    unfold calcPaperProgressGain
    dsimp only
    unfold burstTaken at hnbt
    dsimp only at hnbt
    rw [hite _ _ _ _ _ _ hnbt]
    exact hreg _
  have hb : burstTaken student u3 → 60 ≤ g ∧ g ≤ 100 := by
    intro hb
    rw [hg]
    unfold calcPaperProgressGain
    dsimp only
    unfold burstTaken at hb
    dsimp only at hb
    rw [if_pos hb.1, if_pos hb.2]
    exact ⟨le_clampValue _ _ _, clampValue_le _ _ _ (by norm_num)⟩
  have hg20 : 20 ≤ g := by
    by_cases hbt : burstTaken student u3
    · linarith [(hb hbt).1]
    · exact (hnb hbt).1
  refine ⟨hint, hnb, hb, ?_, ?_⟩
  · intro hlt
    unfold settleStudentProgress
    dsimp only
    have hcomb : clampValue (student.contribution + g) 0 100 = student.contribution + g := by
      unfold clampValue
      rw [min_eq_right (by linarith), max_eq_right (by linarith)]
    rw [hcomb]
    have hfl : jsFloor ((student.contribution + g) / 100) = 0 := by
      unfold jsFloor
      rw [Int.floor_eq_zero_iff]
      constructor
      · positivity
      · rw [div_lt_one (by norm_num)]
        linarith
    rw [hfl]
    norm_num
  · intro hge
    unfold settleStudentProgress
    dsimp only
    have hcomb : clampValue (student.contribution + g) 0 100 = 100 := by
      unfold clampValue
      rw [min_eq_left (by linarith), max_eq_right (by norm_num)]
    rw [hcomb]
    have hfl : jsFloor ((100 : ℚ) / 100) = 1 := by
      unfold jsFloor
      norm_num
    rw [hfl]
    norm_num

theorem claim6_progress_gain_witness :
    (0 : ℚ) ≤ sampleStudent.contribution ∧ sampleStudent.contribution ≤ 100 ∧
    (∃ n : ℤ, calcPaperProgressGain sampleStudent 1 0.2 0.7 0.5 0.5 = n) ∧
    (¬ burstTaken sampleStudent 0.5 →
      20 ≤ calcPaperProgressGain sampleStudent 1 0.2 0.7 0.5 0.5 ∧
      calcPaperProgressGain sampleStudent 1 0.2 0.7 0.5 0.5 ≤ 40) :=
  ⟨by decide, by decide,
   (claim6_progress_gain_and_submission sampleStudent 1 0.2 0.7 0.5 0.5
     (by decide) (by decide)).1,
   (claim6_progress_gain_and_submission sampleStudent 1 0.2 0.7 0.5 0.5
     (by decide) (by decide)).2.1⟩

theorem map_eq_self_of_mem {α : Type} (l : List α) (f : α → α) (h : ∀ a ∈ l, f a = a) :
    l.map f = l := by
  induction l with
  | nil => rfl
  | cons a rest ih =>
    simp only [List.map_cons, List.cons.injEq]
    exact ⟨h a (by simp), ih (fun b hb => h b (by simp [hb]))⟩

/-- C8 counterexample: dismissing `s1` from `dismissalState` leaves the
young teacher `yt1` completely untouched, with `mentorId` still pointing
at the dismissed student: the cascade does not clear every mentor
back-reference. -/
theorem claim8_counterexample :
    (removeStudentFromAllAssignments "s1" dismissalState).teamMembers = [ytStudent] ∧
    ytStudent.studentType = "YOUNG_TEACHER" ∧
    ytStudent.mentorId = some "s1" := by
  refine ⟨?_, rfl, rfl⟩
  decide

/-- C8 (amended): dismissing a student who is the sole assignee of an
active grant and lead of one of its papers removes them from the roster,
empties that grant's `assignedStudentIds`, nulls that paper's
`leadStudentId`, leaves every other grant, paper and project unaffected,
and clears mentor back-references on every non-young-teacher student —
`YOUNG_TEACHER` rows are returned untouched, so a young teacher's
back-reference to the dismissed student survives. -/
theorem claim8_dismissal_cascade (state : GameState) (sid : String)
    (g : GrantState) (p : ProjectPaper)
    (hg : g ∈ state.grantApplications) (hgs : g.status = .active)
    (hga : g.assignedStudentIds = [sid])
    (hp : p ∈ state.projectPapers) (hpl : p.leadStudentId = some sid)
    (hpg : p.grantId = some g.id)
    (hog : ∀ g' ∈ state.grantApplications, g' ≠ g → sid ∉ g'.assignedStudentIds)
    (hop : ∀ p' ∈ state.projectPapers, p' ≠ p → p'.leadStudentId ≠ some sid)
    (hpr : ∀ pr ∈ state.projects, sid ∉ pr.assignedStudentIds) :
    (∀ s ∈ (removeStudentFromAllAssignments sid state).teamMembers, s.id ≠ sid) ∧
    (∀ s ∈ (removeStudentFromAllAssignments sid state).teamMembers,
      s.studentType ≠ "YOUNG_TEACHER" → s.mentorId ≠ some sid) ∧
    (removeStudentFromAllAssignments sid state).projects = state.projects ∧
    { g with assignedStudentIds := ([] : List String) }
        ∈ (removeStudentFromAllAssignments sid state).grantApplications ∧
    (∀ g' ∈ state.grantApplications, g' ≠ g →
      g' ∈ (removeStudentFromAllAssignments sid state).grantApplications) ∧
    { p with leadStudentId := none } ∈ (removeStudentFromAllAssignments sid state).projectPapers ∧
    (∀ p' ∈ state.projectPapers, p' ≠ p →
      p' ∈ (removeStudentFromAllAssignments sid state).projectPapers) ∧
    (removeStudentFromAllAssignments sid state).stats = state.stats ∧
    (removeStudentFromAllAssignments sid state).eventLog = state.eventLog ∧
    (removeStudentFromAllAssignments sid state).pendingDecisions = state.pendingDecisions := by
  refine ⟨?_, ?_, ?_, ?_, ?_, ?_, ?_, rfl, rfl, rfl⟩
  · intro s hs
    unfold removeStudentFromAllAssignments at hs
    dsimp only at hs
    obtain ⟨s', hs', rfl⟩ := List.mem_map.mp hs
    have hid : s'.id ≠ sid := by
      have := List.of_mem_filter hs'
      simpa using this
    split
    · exact hid
    · simpa using hid
  · intro s hs hyt
    unfold removeStudentFromAllAssignments at hs
    dsimp only at hs
    obtain ⟨s', hs', rfl⟩ := List.mem_map.mp hs
    by_cases hty : s'.studentType = "YOUNG_TEACHER"
    · rw [if_pos hty] at hyt ⊢
      exact absurd hty hyt
    · rw [if_neg hty]
      dsimp only
      split
      · simp
      · next hne => simpa using hne
  · unfold removeStudentFromAllAssignments
    dsimp only
    apply map_eq_self_of_mem
    intro pr hmem
    have hfilter : pr.assignedStudentIds.filter (fun i => i ≠ sid) = pr.assignedStudentIds := by
      rw [List.filter_eq_self]
      intro a ha
      have hne : a ≠ sid := fun heq => hpr pr hmem (heq ▸ ha)
      simpa using hne
    rw [hfilter]
  · unfold removeStudentFromAllAssignments
    dsimp only
    have : ({ g with assignedStudentIds := ([] : List String) } : GrantState) =
        { g with assignedStudentIds := g.assignedStudentIds.filter (fun i => i ≠ sid) } := by
      rw [hga]
      simp
    rw [this]
    exact List.mem_map_of_mem _ hg
  · intro g' hg' hne
    unfold removeStudentFromAllAssignments
    dsimp only
    have hfilter : g'.assignedStudentIds.filter (fun i => i ≠ sid) = g'.assignedStudentIds := by
      rw [List.filter_eq_self]
      intro a ha
      have hne2 : a ≠ sid := fun heq => hog g' hg' hne (heq ▸ ha)
      simpa using hne2
    have hgid : ({ g' with assignedStudentIds := g'.assignedStudentIds.filter (fun i => i ≠ sid) } : GrantState) = g' := by
      rw [hfilter]
    rw [← hgid]
    exact List.mem_map_of_mem _ hg'
  · unfold removeStudentFromAllAssignments
    dsimp only
    have : ({ p with leadStudentId := none } : ProjectPaper) =
        (if p.leadStudentId = some sid then { p with leadStudentId := none } else p) := by
      rw [if_pos hpl]
    rw [this]
    exact List.mem_map_of_mem _ hp
  · intro p' hp' hne
    unfold removeStudentFromAllAssignments
    dsimp only
    have hm := List.mem_map_of_mem
      (fun paper => if paper.leadStudentId = some sid then
        { paper with leadStudentId := none } else paper) hp'
    dsimp only at hm
    rwa [if_neg (hop p' hp' hne)] at hm

theorem claim8_dismissal_cascade_witness :
    ({ soloGrant with assignedStudentIds := ([] : List String) }
        ∈ (removeStudentFromAllAssignments "s1" dismissalState).grantApplications) ∧
    ({ soloGrantPaper with leadStudentId := none }
        ∈ (removeStudentFromAllAssignments "s1" dismissalState).projectPapers) ∧
    (removeStudentFromAllAssignments "s1" dismissalState).projects = dismissalState.projects :=
  ⟨(claim8_dismissal_cascade dismissalState "s1" soloGrant soloGrantPaper
      (by decide) rfl rfl (by decide) rfl rfl
      (by decide) (by decide) (by decide)).2.2.2.1,
   (claim8_dismissal_cascade dismissalState "s1" soloGrant soloGrantPaper
      (by decide) rfl rfl (by decide) rfl rfl
      (by decide) (by decide) (by decide)).2.2.2.2.2.1,
   (claim8_dismissal_cascade dismissalState "s1" soloGrant soloGrantPaper
      (by decide) rfl rfl (by decide) rfl rfl
      (by decide) (by decide) (by decide)).2.2.1⟩

/-- C10: resolving a pending decision with an `optionId` that matches none
of its options is a complete no-op: mentor stats, roster, projects,
grants, papers, event log and the decision backlog (the decision itself
included) are all left unchanged. -/
theorem claim10_invalid_option_noop (state : GameState) (decision : DecisionEvent)
    (optionId : String)
    (hpend : decision ∈ state.pendingDecisions)
    (hmiss : ∀ o ∈ decision.options, o.id ≠ optionId) :
    handleDecisionChoose state decision optionId = state := by
  unfold handleDecisionChoose
  have hf : decision.options.find? (fun o => o.id = optionId) = none :=
    List.find?_eq_none.mpr (fun o ho => by simpa using hmiss o ho)
  rw [hf]

theorem claim10_invalid_option_noop_witness :
    sampleDecision ∈ decisionState.pendingDecisions ∧
    (∀ o ∈ sampleDecision.options, o.id ≠ "opt-x") ∧
    handleDecisionChoose decisionState sampleDecision "opt-x" = decisionState :=
  ⟨by decide, by decide,
   claim10_invalid_option_noop decisionState sampleDecision "opt-x" (by decide) (by decide)⟩

/-- C4 counterexample: caller-supplied sub traits are only checked against
the main trait, not against each other, so the mutually conflicting subs
`earlybird`/`nightowl` both survive `resolveStudentTraits` — the result
is not conflict-free. -/
theorem claim4_counterexample :
    resolveStudentTraits specTraitTable (some ["workaholic", "earlybird", "nightowl"]) 0.3
        (fun _ => (0, 0)) (fun _ _ => (0, 0)) (fun _ _ => (0, 0))
      = ["workaholic", "earlybird", "nightowl"] ∧
    hasTraitConflict specTraitTable "earlybird" "nightowl" = true := by
  constructor
  · have hlt : ((0.3 : ℚ) < 0.5) := by norm_num
    unfold resolveStudentTraits
    simp only [hlt, if_true]
    decide
  · decide

theorem hasTraitConflict_symm (table : List StudentTrait) (a b : String) :
    hasTraitConflict table a b = hasTraitConflict table b a := by
  unfold hasTraitConflict
  cases traitById table a <;> cases traitById table b <;> simp
  exact Bool.or_comm _ _

theorem uniformPick_mem (pool : List String) (u : ℚ) (hne : pool ≠ []) (h0 : 0 ≤ u)
    (h1 : u < 1) : uniformPick pool u ∈ pool := by
  unfold uniformPick jsFloor
  have hlen : 0 < (pool.length : ℚ) := by
    have hp := List.length_pos.mpr hne
    exact_mod_cast hp
  have hfl0 : 0 ≤ ⌊u * (pool.length : ℚ)⌋ := Int.floor_nonneg.mpr (by positivity)
  have hflt : ⌊u * (pool.length : ℚ)⌋ < (pool.length : ℤ) := by
    rw [Int.floor_lt]
    push_cast
    nlinarith
  have hidx : (⌊u * (pool.length : ℚ)⌋).toNat < pool.length := by omega
  rw [List.getD_eq_getElem?_getD, List.getElem?_eq_getElem hidx]
  simp

theorem pickWeightedTraitAux_spec (table : List StudentTrait) (category : TraitCategory)
    (blocked : List String) (rolls : ℕ → ℚ × ℚ)
    (hroll : ∀ k, 0 ≤ (rolls k).2 ∧ (rolls k).2 < 1) :
    ∀ fuel k t, pickWeightedTraitAux table category blocked rolls k fuel = some t →
      (∃ tr ∈ table, tr.id = t ∧ tr.category = category) ∧ t ∉ blocked ∧
      (∀ b ∈ blocked, hasTraitConflict table b t = false) := by
  intro fuel
  induction fuel with
  | zero =>
    intro k t h
    simp [pickWeightedTraitAux] at h
  | succ n ih =>
    intro k t h
    unfold pickWeightedTraitAux at h
    dsimp only at h
    by_cases hpool : ((traitPool table category (weightedBucket category (rolls k).1)).filter
        (fun traitId => ¬ traitId ∈ blocked)) = []
    · rw [if_pos hpool] at h
      exact ih _ _ h
    · rw [if_neg hpool] at h
      by_cases hc : (blocked.any (fun selected => hasTraitConflict table selected
          (uniformPick ((traitPool table category (weightedBucket category (rolls k).1)).filter
            (fun traitId => ¬ traitId ∈ blocked)) (rolls k).2))) = true
      · rw [if_pos hc] at h
        exact ih _ _ h
      · rw [if_neg hc] at h
        injection h with h
        subst h
        have hmem := uniformPick_mem _ (rolls k).2 hpool (hroll k).1 (hroll k).2
        have hmem2 := List.mem_filter.mp hmem
        have hnb : uniformPick ((traitPool table category (weightedBucket category (rolls k).1)).filter
            (fun traitId => ¬ traitId ∈ blocked)) (rolls k).2 ∉ blocked := by
          simpa using hmem2.2
        obtain ⟨tr, htr, hid⟩ := List.mem_map.mp hmem2.1
        have htr2 := List.mem_filter.mp htr
        have hcat : tr.category = category := by
          have h2 := htr2.2
          simp only [decide_eq_true_eq, Bool.and_eq_true] at h2
          exact h2.1
        refine ⟨⟨tr, htr2.1, hid, hcat⟩, hnb, ?_⟩
        intro b hb
        have hany := (Bool.not_eq_true _).mp hc
        rw [List.any_eq_false] at hany
        simpa using hany b hb

theorem pickWeightedTrait_spec (table : List StudentTrait) (category : TraitCategory)
    (blocked : List String) (rolls : ℕ → ℚ × ℚ)
    (hroll : ∀ k, 0 ≤ (rolls k).2 ∧ (rolls k).2 < 1) (t : String) :
    pickWeightedTrait table category blocked rolls = some t →
      (∃ tr ∈ table, tr.id = t ∧ tr.category = category) ∧ t ∉ blocked := by
  unfold pickWeightedTrait
  cases haux : pickWeightedTraitAux table category blocked rolls 0 24 with
  | some t' =>
    intro h
    injection h with h
    subst h
    have hs := pickWeightedTraitAux_spec table category blocked rolls hroll 24 0 t' haux
    exact ⟨hs.1, hs.2.1⟩
  | none =>
    intro h
    simp only [Option.map_eq_some'] at h
    obtain ⟨tr, hfind, hid⟩ := h
    have hp := List.find?_some hfind
    have hmem := List.mem_of_find?_eq_some hfind
    simp only [decide_eq_true_eq, Bool.and_eq_true, decide_not, Bool.not_eq_true',
      decide_eq_false_iff_not] at hp
    subst hid
    exact ⟨⟨tr, hmem, rfl, by simpa using hp.1⟩, by simpa using hp.2⟩

theorem pickWeightedTrait_isSome (table : List StudentTrait) (category : TraitCategory)
    (blocked : List String) (rolls : ℕ → ℚ × ℚ)
    (hex : ∃ tr ∈ table, tr.category = category ∧ tr.id ∉ blocked) :
    ∃ t, pickWeightedTrait table category blocked rolls = some t := by
  unfold pickWeightedTrait
  cases haux : pickWeightedTraitAux table category blocked rolls 0 24 with
  | some t => exact ⟨t, rfl⟩
  | none =>
    have hs : (table.find? (fun tr => tr.category = category ∧ ¬ tr.id ∈ blocked)).isSome := by
      rw [List.find?_isSome]
      obtain ⟨tr, htr, hc, hb⟩ := hex
      exact ⟨tr, htr, by simp [hc, hb]⟩
    obtain ⟨tr, htr⟩ := Option.isSome_iff_exists.mp hs
    exact ⟨tr.id, by rw [htr]; rfl⟩

/-- Pairwise conflict-freedom of a trait id list. -/
def pairwiseNoConflict (table : List StudentTrait) (l : List String) : Prop :=
  ∀ a ∈ l, ∀ b ∈ l, a ≠ b → hasTraitConflict table a b = false

theorem pairwiseNoConflict_extend (table : List StudentTrait) (l : List String) (t : String)
    (hl : pairwiseNoConflict table l)
    (ht : ∀ x ∈ l, hasTraitConflict table x t = false) :
    pairwiseNoConflict table (l ++ [t]) := by
  intro a ha b hb hne
  rw [List.mem_append] at ha hb
  rcases ha with ha | ha <;> rcases hb with hb | hb
  · exact hl a ha b hb hne
  · simp only [List.mem_singleton] at hb
    subst hb
    exact ht a ha
  · simp only [List.mem_singleton] at ha
    subst ha
    rw [hasTraitConflict_symm]
    exact ht b hb
  · simp only [List.mem_singleton] at ha hb
    exact absurd (ha.trans hb.symm) hne

theorem pickWeightedTraitsAux_spec (table : List StudentTrait) (category : TraitCategory)
    (blocked : List String) (count : ℕ) (rolls : ℕ → ℕ → ℚ × ℚ) :
    ∀ fuel k picked,
      (∀ x ∈ picked, ∀ b ∈ blocked, hasTraitConflict table b x = false) →
      pairwiseNoConflict table picked →
      (∀ x ∈ pickWeightedTraitsAux table category blocked count rolls k fuel picked,
        ∀ b ∈ blocked, hasTraitConflict table b x = false) ∧
      pairwiseNoConflict table
        (pickWeightedTraitsAux table category blocked count rolls k fuel picked) := by
  intro fuel
  induction fuel with
  | zero =>
    intro k picked hblocked hpair
    exact ⟨hblocked, hpair⟩
  | succ n ih =>
    intro k picked hblocked hpair
    unfold pickWeightedTraitsAux
    by_cases hlen : count ≤ picked.length
    · rw [if_pos hlen]
      exact ⟨hblocked, hpair⟩
    · rw [if_neg hlen]
      cases hpick : pickWeightedTrait table category (blocked ++ picked) (rolls k) with
      | none => exact ⟨hblocked, hpair⟩
      | some traitId =>
        dsimp only
        by_cases h1 : traitId ∈ picked
        · rw [if_pos h1]
          exact ih _ _ hblocked hpair
        · rw [if_neg h1]
          by_cases h2 : (blocked.any (fun selected => hasTraitConflict table selected traitId)) = true
          · rw [if_pos h2]
            exact ih _ _ hblocked hpair
          · rw [if_neg h2]
            by_cases h3 : (picked.any (fun selected => hasTraitConflict table selected traitId)) = true
            · rw [if_pos h3]
              exact ih _ _ hblocked hpair
            · rw [if_neg h3]
              have hb2 : ∀ b ∈ blocked, hasTraitConflict table b traitId = false := by
                intro b hb
                have hany := (Bool.not_eq_true _).mp h2
                rw [List.any_eq_false] at hany
                simpa using hany b hb
              have hp2 : ∀ x ∈ picked, hasTraitConflict table x traitId = false := by
                intro x hx
                have hany := (Bool.not_eq_true _).mp h3
                rw [List.any_eq_false] at hany
                simpa using hany x hx
              apply ih
              · intro x hx b hb
                rw [List.mem_append] at hx
                rcases hx with hx | hx
                · exact hblocked x hx b hb
                · simp only [List.mem_singleton] at hx
                  subst hx
                  exact hb2 b hb
              · exact pairwiseNoConflict_extend table picked traitId hpair hp2

theorem pickWeightedTraits_spec (table : List StudentTrait) (category : TraitCategory)
    (count : ℕ) (blocked : List String) (rolls : ℕ → ℕ → ℚ × ℚ) :
    (∀ x ∈ pickWeightedTraits table category count blocked rolls,
      ∀ b ∈ blocked, hasTraitConflict table b x = false) ∧
    pairwiseNoConflict table (pickWeightedTraits table category count blocked rolls) := by
  unfold pickWeightedTraits
  exact pickWeightedTraitsAux_spec table category blocked count rolls 24 0 []
    (by intro x hx; simp at hx) (by intro a ha; simp at ha)

theorem jsSetDedup_subset (l : List String) :
    ∀ seen, ∀ x ∈ jsSetDedup seen l, x ∈ l := by
  induction l with
  | nil =>
    intro seen x hx
    simp [jsSetDedup] at hx
  | cons a rest ih =>
    intro seen x hx
    unfold jsSetDedup at hx
    by_cases hseen : a ∈ seen
    · rw [if_pos hseen] at hx
      exact List.mem_cons_of_mem _ (ih seen x hx)
    · rw [if_neg hseen] at hx
      rcases List.mem_cons.mp hx with h | h
      · exact h ▸ List.mem_cons_self _ _
      · exact List.mem_cons_of_mem _ (ih _ x h)

theorem suppliedMainTrait_spec (table : List StudentTrait) (uniq : List String) (t : String)
    (h : suppliedMainTrait table uniq = some t) :
    ∃ tr ∈ table, tr.id = t ∧ tr.category = .main := by
  unfold suppliedMainTrait at h
  have hp := List.find?_some h
  cases hb : traitById table t with
  | none =>
    rw [hb] at hp
    simp at hp
  | some tr =>
    rw [hb] at hp
    simp only [decide_eq_true_eq] at hp
    unfold traitById at hb
    have hmem := List.mem_of_find?_eq_some hb
    have hid := List.find?_some hb
    simp only [decide_eq_true_eq] at hid
    exact ⟨tr, hmem, hid, hp⟩

/-- C4 (amended): for every trait table containing a main trait, every
input trait list and every random outcome (main-sampler rolls in
`[0,1)`), `resolveStudentTraits` returns a non-empty set containing a
main trait; the set is guaranteed mutually conflict-free when the caller
supplies no valid sub-trait ids — caller-supplied sub traits are reused
after a conflict check against the main trait only, so conflicting
supplied subs (or conflicts between supplied subs and random fills) can
survive into the output. -/
theorem claim4_trait_resolution (table : List StudentTrait) (traits : Option (List String))
    (subCountU : ℚ) (mainRolls : ℕ → ℚ × ℚ) (subRolls fallbackRolls : ℕ → ℕ → ℚ × ℚ)
    (htable : ∃ tr ∈ table, tr.category = .main)
    (hmr : ∀ k, 0 ≤ (mainRolls k).2 ∧ (mainRolls k).2 < 1) :
    resolveStudentTraits table traits subCountU mainRolls subRolls fallbackRolls ≠ [] ∧
    (∃ tid ∈ resolveStudentTraits table traits subCountU mainRolls subRolls fallbackRolls,
      ∃ tr ∈ table, tr.id = tid ∧ tr.category = .main) ∧
    ((∀ tid ∈ traits.getD [], ∀ tr, traitById table tid = some tr → tr.category ≠ .sub) →
      pairwiseNoConflict table
        (resolveStudentTraits table traits subCountU mainRolls subRolls fallbackRolls)) := by
  have hrm : ∃ m, (match suppliedMainTrait table (validUniqueTraits table traits) with
      | some t => some t
      | none => pickWeightedTrait table .main [] mainRolls) = some m ∧
      ∃ tr ∈ table, tr.id = m ∧ tr.category = .main := by
    cases hmt : suppliedMainTrait table (validUniqueTraits table traits) with
    | some t => exact ⟨t, rfl, suppliedMainTrait_spec table _ t hmt⟩
    | none =>
      obtain ⟨t, ht⟩ := pickWeightedTrait_isSome table .main [] mainRolls
        (by
          obtain ⟨tr, h1, h2⟩ := htable
          exact ⟨tr, h1, h2, by simp⟩)
      obtain ⟨hspec1, _⟩ := pickWeightedTrait_spec table .main [] mainRolls hmr t ht
      exact ⟨t, ht, hspec1⟩
  obtain ⟨m, hm, hmprop⟩ := hrm
  unfold resolveStudentTraits
  dsimp only
  rw [hm]
  dsimp only
  have hne0 : ∀ X : List String, ([m] ++ X) ≠ [] := by
    intro X
    simp
  rw [if_pos (hne0 _)]
  refine ⟨hne0 _, ⟨m, by simp, hmprop⟩, ?_⟩
  intro hnosub
  have hsubnil : suppliedSubTraits table (validUniqueTraits table traits) = [] := by
    unfold suppliedSubTraits
    rw [List.filter_eq_nil]
    intro tid htid
    unfold validUniqueTraits at htid
    have htid2 := List.mem_filter.mp htid
    have hin : tid ∈ traits.getD [] := jsSetDedup_subset _ [] tid htid2.1
    cases hb : traitById table tid with
    | none => simp
    | some tr =>
      have hns := hnosub tid hin tr hb
      simp [hb, hns]
  rw [hsubnil]
  have hreuse : reuseSubTraits table (some m) (if subCountU < 0.5 then 2 else 3) [] = [] := rfl
  rw [hreuse]
  have hdes : (0 : ℕ) < (if subCountU < (0.5 : ℚ) then 2 else 3) := by
    split <;> norm_num
  rw [if_pos (by simpa using hdes)]
  have hfill := pickWeightedTraits_spec table .sub
    ((if subCountU < (0.5 : ℚ) then 2 else 3) - List.length ([] : List String)) [m] subRolls
  intro a ha b hb hne
  simp only [List.nil_append] at ha hb
  rcases List.mem_cons.mp ha with rfl | ha2 <;> rcases List.mem_cons.mp hb with rfl | hb2
  · exact absurd rfl hne
  · exact hfill.1 b hb2 a (by simp)
  · rw [hasTraitConflict_symm]
    exact hfill.1 a ha2 b (by simp)
  · exact hfill.2 a ha2 b hb2 hne

theorem claim4_trait_resolution_witness :
    resolveStudentTraits specTraitTable (some ["workaholic"]) 0.3 (fun _ => (0.2, 0.2))
        (fun _ _ => (0.2, 0.2)) (fun _ _ => (0.2, 0.2)) ≠ [] ∧
    (∃ tid ∈ resolveStudentTraits specTraitTable (some ["workaholic"]) 0.3 (fun _ => (0.2, 0.2))
        (fun _ _ => (0.2, 0.2)) (fun _ _ => (0.2, 0.2)),
      ∃ tr ∈ specTraitTable, tr.id = tid ∧ tr.category = .main) :=
  ⟨(claim4_trait_resolution specTraitTable (some ["workaholic"]) 0.3 (fun _ => (0.2, 0.2))
      (fun _ _ => (0.2, 0.2)) (fun _ _ => (0.2, 0.2))
      (by decide) (fun k => by norm_num)).1,
   (claim4_trait_resolution specTraitTable (some ["workaholic"]) 0.3 (fun _ => (0.2, 0.2))
      (fun _ _ => (0.2, 0.2)) (fun _ _ => (0.2, 0.2))
      (by decide) (fun k => by norm_num)).2.1⟩

theorem buildPairsAux_mentor_mem_ids (ids : List String) :
    ∀ (l : List StudentPersona) (used : List String) (p : String × String),
      p ∈ buildPairsAux ids used l → p.1 ∈ ids := by
  intro l
  induction l with
  | nil =>
    intro used p hp
    simp [buildPairsAux] at hp
  | cons s rest ih =>
    intro used p hp
    unfold buildPairsAux at hp
    cases hm : s.mentorId with
    | none =>
      rw [hm] at hp
      dsimp only at hp
      exact ih used p hp
    | some mentorId =>
      rw [hm] at hp
      dsimp only at hp
      by_cases hg : mentorId = s.id ∨ mentorId ∉ ids ∨ mentorId ∈ used
      · rw [if_pos hg] at hp
        exact ih used p hp
      · rw [if_neg hg] at hp
        push_neg at hg
        rcases List.mem_cons.mp hp with rfl | hp2
        · exact hg.2.1
        · exact ih _ p hp2

theorem buildPairsAux_mentor_not_used (ids : List String) :
    ∀ (l : List StudentPersona) (used : List String) (p : String × String),
      p ∈ buildPairsAux ids used l → p.1 ∉ used := by
  intro l
  induction l with
  | nil =>
    intro used p hp
    simp [buildPairsAux] at hp
  | cons s rest ih =>
    intro used p hp
    unfold buildPairsAux at hp
    cases hm : s.mentorId with
    | none =>
      rw [hm] at hp
      dsimp only at hp
      exact ih used p hp
    | some mentorId =>
      rw [hm] at hp
      dsimp only at hp
      by_cases hg : mentorId = s.id ∨ mentorId ∉ ids ∨ mentorId ∈ used
      · rw [if_pos hg] at hp
        exact ih used p hp
      · rw [if_neg hg] at hp
        push_neg at hg
        rcases List.mem_cons.mp hp with rfl | hp2
        · exact hg.2.2
        · have := ih _ p hp2
          intro hmem
          exact this (List.mem_cons_of_mem _ hmem)

theorem buildPairsAux_fst_nodup (ids : List String) :
    ∀ (l : List StudentPersona) (used : List String),
      ((buildPairsAux ids used l).map Prod.fst).Nodup := by
  intro l
  induction l with
  | nil =>
    intro used
    simp [buildPairsAux]
  | cons s rest ih =>
    intro used
    unfold buildPairsAux
    cases hm : s.mentorId with
    | none => exact ih used
    | some mentorId =>
      dsimp only
      by_cases hg : mentorId = s.id ∨ mentorId ∉ ids ∨ mentorId ∈ used
      · rw [if_pos hg]
        exact ih used
      · rw [if_neg hg]
        simp only [List.map_cons, List.nodup_cons]
        refine ⟨?_, ih _⟩
        intro hmem
        obtain ⟨p, hp, hfst⟩ := List.mem_map.mp hmem
        have := buildPairsAux_mentor_not_used ids rest (mentorId :: used) p hp
        exact this (hfst ▸ List.mem_cons_self _ _)

theorem buildPairsAux_mentee_mem (ids : List String) :
    ∀ (l : List StudentPersona) (used : List String) (p : String × String),
      p ∈ buildPairsAux ids used l → p.2 ∈ l.map (fun s => s.id) := by
  intro l
  induction l with
  | nil =>
    intro used p hp
    simp [buildPairsAux] at hp
  | cons s rest ih =>
    intro used p hp
    unfold buildPairsAux at hp
    cases hm : s.mentorId with
    | none =>
      rw [hm] at hp
      dsimp only at hp
      exact List.mem_cons_of_mem _ (ih used p hp)
    | some mentorId =>
      rw [hm] at hp
      dsimp only at hp
      by_cases hg : mentorId = s.id ∨ mentorId ∉ ids ∨ mentorId ∈ used
      · rw [if_pos hg] at hp
        exact List.mem_cons_of_mem _ (ih used p hp)
      · rw [if_neg hg] at hp
        rcases List.mem_cons.mp hp with rfl | hp2
        · exact List.mem_cons_self _ _
        · exact List.mem_cons_of_mem _ (ih _ p hp2)

theorem buildPairsAux_snd_nodup (ids : List String) :
    ∀ (l : List StudentPersona) (used : List String),
      (l.map (fun s => s.id)).Nodup →
      ((buildPairsAux ids used l).map Prod.snd).Nodup := by
  intro l
  induction l with
  | nil =>
    intro used hnd
    simp [buildPairsAux]
  | cons s rest ih =>
    intro used hnd
    simp only [List.map_cons, List.nodup_cons] at hnd
    unfold buildPairsAux
    cases hm : s.mentorId with
    | none => exact ih used hnd.2
    | some mentorId =>
      dsimp only
      by_cases hg : mentorId = s.id ∨ mentorId ∉ ids ∨ mentorId ∈ used
      · rw [if_pos hg]
        exact ih used hnd.2
      · rw [if_neg hg]
        simp only [List.map_cons, List.nodup_cons]
        refine ⟨?_, ih _ hnd.2⟩
        intro hmem
        obtain ⟨p, hp, hsnd⟩ := List.mem_map.mp hmem
        have := buildPairsAux_mentee_mem ids rest (mentorId :: used) p hp
        exact hnd.1 (hsnd ▸ this)

theorem buildPairsAux_first_claim (ids : List String) :
    ∀ (l : List StudentPersona) (used : List String) (p : String × String),
      p ∈ buildPairsAux ids used l →
      ∃ t0, l.find? (fun t => t.mentorId = some p.1 ∧ t.id ≠ p.1) = some t0 ∧ t0.id = p.2 := by
  intro l
  induction l with
  | nil =>
    intro used p hp
    simp [buildPairsAux] at hp
  | cons s rest ih =>
    intro used p hp
    unfold buildPairsAux at hp
    cases hm : s.mentorId with
    | none =>
      rw [hm] at hp
      dsimp only at hp
      obtain ⟨t0, hfind, hid⟩ := ih used p hp
      refine ⟨t0, ?_, hid⟩
      rw [List.find?_cons_of_neg _ (by simp [hm]), hfind]
    | some mentorId =>
      rw [hm] at hp
      dsimp only at hp
      by_cases hg : mentorId = s.id ∨ mentorId ∉ ids ∨ mentorId ∈ used
      · rw [if_pos hg] at hp
        obtain ⟨t0, hfind, hid⟩ := ih used p hp
        refine ⟨t0, ?_, hid⟩
        have hpred : ¬ (s.mentorId = some p.1 ∧ s.id ≠ p.1) := by
          rw [hm]
          rintro ⟨hp1, hp2⟩
          injection hp1 with hp1
          subst hp1
          rcases hg with hg | hg | hg
          · exact hp2 hg.symm
          · exact hg (buildPairsAux_mentor_mem_ids ids rest used p hp)
          · exact (buildPairsAux_mentor_not_used ids rest used p hp) hg
        rw [List.find?_cons_of_neg _ (by simpa using hpred), hfind]
      · rw [if_neg hg] at hp
        push_neg at hg
        rcases List.mem_cons.mp hp with rfl | hp2
        · refine ⟨s, ?_, rfl⟩
          rw [List.find?_cons_of_pos _ (by
            show decide (s.mentorId = some mentorId ∧ s.id ≠ mentorId) = true
            rw [hm, decide_eq_true_eq]
            exact ⟨rfl, fun (h : s.id = mentorId) => hg.1 h.symm⟩)]
        · obtain ⟨t0, hfind, hid⟩ := ih _ p hp2
          refine ⟨t0, ?_, hid⟩
          have hne : mentorId ≠ p.1 := by
            intro heq
            subst heq
            exact (buildPairsAux_mentor_not_used ids rest _ p hp2) (List.mem_cons_self _ _)
          rw [List.find?_cons_of_neg _ (by simp [hm, hne]), hfind]

theorem applyPairStep_ids (table : List StudentTrait) (acc : List StudentPersona)
    (pair : String × String) :
    (applyPairStep table acc pair).map (fun s => s.id) = acc.map (fun s => s.id) := by
  unfold applyPairStep
  cases hf1 : acc.find? (fun s => s.id = pair.1) with
  | none => rfl
  | some mentor =>
    cases hf2 : acc.find? (fun s => s.id = pair.2) with
    | none => rfl
    | some mentee =>
      have hmid : mentee.id = pair.2 := by
        have := List.find?_some hf2
        simpa using this
      rw [List.map_map]
      apply List.map_congr_left
      intro s _
      simp only [Function.comp_apply]
      split
      · next hs =>
        show (applyMentorInfluence table mentee mentor).id = s.id
        have : (applyMentorInfluence table mentee mentor).id = mentee.id := rfl
        rw [this, hmid, hs]
      · rfl

theorem foldl_applyPairStep_ids (table : List StudentTrait) :
    ∀ (pairs : List (String × String)) (l : List StudentPersona),
      ((pairs.foldl (applyPairStep table) l).map (fun s => s.id)) = l.map (fun s => s.id) := by
  intro pairs
  induction pairs with
  | nil =>
    intro l
    rfl
  | cons p rest ih =>
    intro l
    rw [List.foldl_cons, ih, applyPairStep_ids]

theorem foldl_applyPairStep_frame (table : List StudentTrait) :
    ∀ (pairs : List (String × String)) (l : List StudentPersona) (mid : String),
      mid ∉ pairs.map Prod.snd →
      ∀ s ∈ pairs.foldl (applyPairStep table) l, s.id = mid →
      ∃ s0 ∈ l, s0.id = mid ∧ s.mentorId = s0.mentorId ∧
        s.isBeingMentored = s0.isBeingMentored := by
  intro pairs
  induction pairs with
  | nil =>
    intro l mid _ s hs hid
    exact ⟨s, hs, hid, rfl, rfl⟩
  | cons p rest ih =>
    intro l mid hmid s hs hid
    simp only [List.map_cons, List.mem_cons, not_or] at hmid
    rw [List.foldl_cons] at hs
    obtain ⟨s0, hs0, hs0id, hmId, hbeing⟩ := ih _ mid hmid.2 s hs hid
    unfold applyPairStep at hs0
    rcases hfa : l.find? (fun t => t.id = p.1) with _ | mentor <;> rw [hfa] at hs0
    · exact ⟨s0, hs0, hs0id, hmId, hbeing⟩
    rcases hfb : l.find? (fun t => t.id = p.2) with _ | mentee <;> rw [hfb] at hs0
    · exact ⟨s0, hs0, hs0id, hmId, hbeing⟩
    obtain ⟨s1, hs1, hs1eq⟩ := List.mem_map.mp hs0
    by_cases hsp : s1.id = p.2
    · rw [if_pos hsp] at hs1eq
      have : s0.id = mentee.id := by
        rw [← hs1eq]
        rfl
      have hmenteeid : mentee.id = p.2 := by
        have := List.find?_some hfb
        simpa using this
      rw [this, hmenteeid] at hs0id
      exact absurd hs0id.symm (by simpa using hmid.1)
    · rw [if_neg hsp] at hs1eq
      subst hs1eq
      exact ⟨s1, hs1, hs0id, hmId, hbeing⟩

theorem foldl_applyPairStep_sets (table : List StudentTrait) :
    ∀ (pairs : List (String × String)) (l : List StudentPersona) (X mid : String),
      (pairs.map Prod.snd).Nodup →
      (∀ p ∈ pairs, p.1 ∈ l.map (fun s => s.id)) →
      (X, mid) ∈ pairs →
      ∀ s ∈ pairs.foldl (applyPairStep table) l, s.id = mid →
      s.mentorId = some X ∧ s.isBeingMentored = true := by
  intro pairs
  induction pairs with
  | nil =>
    intro l X mid _ _ hp
    simp at hp
  | cons p rest ih =>
    intro l X mid hnd hmem hp s hs hid
    simp only [List.map_cons, List.nodup_cons] at hnd
    rw [List.foldl_cons] at hs
    rcases List.mem_cons.mp hp with heq | hp2
    · -- the head pair sets this mentee; the rest leave it alone
      have hX : p.1 = X := by rw [← heq]
      have hM : p.2 = mid := by rw [← heq]
      have hfa : (l.find? (fun t => t.id = p.1)).isSome := by
        rw [List.find?_isSome]
        obtain ⟨t, ht, htid⟩ := List.mem_map.mp (hmem p (List.mem_cons_self _ _))
        exact ⟨t, ht, by simp [htid]⟩
      obtain ⟨mentor, hmentor⟩ := Option.isSome_iff_exists.mp hfa
      by_cases hmb : (l.find? (fun t => t.id = p.2)).isSome
      · obtain ⟨mentee, hmentee⟩ := Option.isSome_iff_exists.mp hmb
        have hstep : applyPairStep table l p = l.map (fun t =>
            if t.id = p.2 then
              { applyMentorInfluence table mentee mentor with
                isBeingMentored := true, mentorId := some p.1 }
            else t) := by
          unfold applyPairStep
          rw [hmentor, hmentee]
        rw [hstep] at hs
        have hmid2 : mid ∉ rest.map Prod.snd := hM ▸ hnd.1
        obtain ⟨s0, hs0, hs0id, hmId, hbeing⟩ :=
          foldl_applyPairStep_frame table rest _ mid hmid2 s hs hid
        obtain ⟨s1, hs1, hs1eq⟩ := List.mem_map.mp hs0
        by_cases hsp : s1.id = p.2
        · rw [if_pos hsp] at hs1eq
          rw [← hs1eq] at hmId hbeing
          simp only at hmId hbeing
          rw [hmId, hbeing]
          exact ⟨by rw [hX], rfl⟩
        · rw [if_neg hsp] at hs1eq
          subst hs1eq
          rw [hs0id] at hsp
          exact absurd hM.symm hsp
      · have hstep : applyPairStep table l p = l := by
          unfold applyPairStep
          rw [hmentor]
          rcases hfb : l.find? (fun t => t.id = p.2) with _ | mentee
          · rw [hfb]
          · exact absurd (by rw [hfb]; rfl) hmb
        rw [hstep] at hs
        have hin : s.id ∈ l.map (fun t => t.id) := by
          rw [← foldl_applyPairStep_ids table rest l]
          exact List.mem_map_of_mem _ hs
        rw [hid] at hin
        obtain ⟨t, ht, htid⟩ := List.mem_map.mp hin
        have : (l.find? (fun u => u.id = p.2)).isSome := by
          rw [List.find?_isSome]
          exact ⟨t, ht, by simp [htid, hM]⟩
        exact absurd this hmb
    · -- the pair lives in the tail; recurse through the updated list
      have hmem2 : ∀ q ∈ rest, q.1 ∈ (applyPairStep table l p).map (fun s => s.id) := by
        intro q hq
        rw [applyPairStep_ids]
        exact hmem q (List.mem_cons_of_mem _ hq)
      exact ih _ X mid hnd.2 hmem2 hp2 s hs hid

theorem nodup_ids_all_eq_length_le_one (l : List StudentPersona)
    (hnd : (l.map (fun s => s.id)).Nodup) (hall : ∀ a ∈ l, ∀ b ∈ l, a.id = b.id) :
    l.length ≤ 1 := by
  cases l with
  | nil => simp
  | cons a rest =>
    cases rest with
    | nil => simp
    | cons b rest2 =>
      exfalso
      have hab : a.id = b.id := hall a (by simp) b (by simp)
      simp only [List.map_cons, List.nodup_cons] at hnd
      exact hnd.1 (by simp [hab])

theorem nodup_fst_eq (ps : List (String × String)) (h : (ps.map Prod.fst).Nodup) :
    ∀ a b X, (X, a) ∈ ps → (X, b) ∈ ps → a = b := by
  induction ps with
  | nil =>
    intro a b X ha
    simp at ha
  | cons q rest ih =>
    intro a b X ha hb
    simp only [List.map_cons, List.nodup_cons] at h
    rcases List.mem_cons.mp ha with rfl | ha2 <;> rcases List.mem_cons.mp hb with hbb | hb2
    · exact (congrArg Prod.snd hbb).symm
    · exact absurd (List.mem_map_of_mem Prod.fst hb2) h.1
    · rw [← hbb] at h
      exact absurd (List.mem_map_of_mem Prod.fst ha2) (by simpa using h.1)
    · exact ih h.2 a b X ha2 hb2

/-- C5: after a mentorship rebuild pass over a roster with unique ids,
each mentor id is held by at most one student, every student not selected
as a mentee ends with `isBeingMentored = false` and `mentorId` cleared,
and a surviving `mentorId = X` belongs exactly to the first valid
claimant of `X` in roster order. -/
theorem claim5_mentorship_rebuild (table : List StudentTrait) (students : List StudentPersona)
    (hnodup : (students.map (fun s => s.id)).Nodup) :
    (∀ X : String,
      ((applyMentorshipInfluence table students).filter
        (fun s => s.mentorId = some X)).length ≤ 1) ∧
    (∀ r ∈ applyMentorshipInfluence table students,
      r.id ∉ (buildMentorshipPairs students).map (fun p => p.2) →
        r.isBeingMentored = false ∧ r.mentorId = none) ∧
    (∀ r ∈ applyMentorshipInfluence table students, ∀ X, r.mentorId = some X →
      ∃ t0, students.find? (fun t => t.mentorId = some X ∧ t.id ≠ X) = some t0 ∧
        t0.id = r.id) := by
  have hpairs : buildMentorshipPairs students
      = buildPairsAux (students.map (fun s => s.id)) [] students := rfl
  have hsnd : ((buildMentorshipPairs students).map Prod.snd).Nodup := by
    rw [hpairs]
    exact buildPairsAux_snd_nodup (students.map (fun s => s.id)) students [] hnodup
  have hfst : ((buildMentorshipPairs students).map Prod.fst).Nodup := by
    rw [hpairs]
    exact buildPairsAux_fst_nodup (students.map (fun s => s.id)) students []
  have hmentors : ∀ p ∈ buildMentorshipPairs students, p.1 ∈ students.map (fun s => s.id) := by
    rw [hpairs]
    exact fun p hp =>
      buildPairsAux_mentor_mem_ids (students.map (fun s => s.id)) students [] p hp
  have hresult : ∀ r ∈ applyMentorshipInfluence table students,
      ∃ s ∈ (buildMentorshipPairs students).foldl (applyPairStep table) students,
        r = (if s.id ∈ (buildMentorshipPairs students).map (fun p => p.2) then s
             else { s with isBeingMentored := false, mentorId := none }) := by
    intro r hr
    unfold applyMentorshipInfluence at hr
    dsimp only at hr
    obtain ⟨s, hs, heq⟩ := List.mem_map.mp hr
    exact ⟨s, hs, heq.symm⟩
  have hpos : ∀ r ∈ applyMentorshipInfluence table students, ∀ X, r.mentorId = some X →
      (X, r.id) ∈ buildMentorshipPairs students := by
    intro r hr X hX
    obtain ⟨s, hs, heq⟩ := hresult r hr
    by_cases hin : s.id ∈ (buildMentorshipPairs students).map (fun p => p.2)
    · rw [if_pos hin] at heq
      obtain ⟨q, hq, hq2⟩ := List.mem_map.mp hin
      have hq3 : (q.1, s.id) ∈ buildMentorshipPairs students := by
        rw [← hq2]
        exact hq
      have hset := foldl_applyPairStep_sets table (buildMentorshipPairs students) students
        q.1 s.id hsnd hmentors hq3 s hs rfl
      have hXq : s.mentorId = some X := by
        rw [← heq]
        exact hX
      rw [hset.1] at hXq
      injection hXq with hXq
      rw [heq, ← hXq]
      exact hq3
    · rw [if_neg hin] at heq
      rw [heq] at hX
      simp at hX
  have hids : (applyMentorshipInfluence table students).map (fun s => s.id)
      = students.map (fun s => s.id) := by
    unfold applyMentorshipInfluence
    dsimp only
    rw [List.map_map]
    calc ((buildMentorshipPairs students).foldl (applyPairStep table) students).map _
        = ((buildMentorshipPairs students).foldl (applyPairStep table) students).map
            (fun s => s.id) := by
          apply List.map_congr_left
          intro s _
          dsimp only [Function.comp_apply]
          split <;> rfl
      _ = students.map (fun s => s.id) :=
          foldl_applyPairStep_ids table (buildMentorshipPairs students) students
  refine ⟨?_, ?_, ?_⟩
  · intro X
    apply nodup_ids_all_eq_length_le_one
    · have hrnodup : ((applyMentorshipInfluence table students).map (fun s => s.id)).Nodup := by
        rw [hids]
        exact hnodup
      exact hrnodup.sublist (List.Sublist.map _ (List.filter_sublist _))
    · intro a ha b hb
      have haP : a.mentorId = some X := by simpa using List.of_mem_filter ha
      have hbP : b.mentorId = some X := by simpa using List.of_mem_filter hb
      have ha1 := hpos a (List.mem_of_mem_filter ha) X haP
      have hb1 := hpos b (List.mem_of_mem_filter hb) X hbP
      exact nodup_fst_eq _ hfst a.id b.id X ha1 hb1
  · intro r hr hnot
    obtain ⟨s, hs, heq⟩ := hresult r hr
    by_cases hin : s.id ∈ (buildMentorshipPairs students).map (fun p => p.2)
    · rw [if_pos hin] at heq
      rw [heq] at hnot
      exact absurd hin hnot
    · rw [if_neg hin] at heq
      rw [heq]
      exact ⟨rfl, rfl⟩
  · intro r hr X hX
    have hq := hpos r hr X hX
    rw [hpairs] at hq
    exact buildPairsAux_first_claim (students.map (fun s => s.id)) students [] (X, r.id) hq

theorem claim5_mentorship_rebuild_witness :
    ((rosterA.map (fun s => s.id)).Nodup) ∧
    ((applyMentorshipInfluence specTraitTable rosterA).filter
      (fun s => s.mentorId = some "m1")).length ≤ 1 :=
  ⟨by decide, (claim5_mentorship_rebuild specTraitTable rosterA (by decide)).1 "m1"⟩

end HuaidaoSim
